import Mathlib

/-!
# Fantasy-APN: the alert filter of `monitor.js`

A shallow embedding of the decision logic of `src/monitor.js`: statistic
extraction, threshold evaluation, roster classification, same-day
deduplication, the game-time window and the monitoring cycle; and of
`extractRosteredPlayerIds` of `src/historical_roster_fetcher.js`.

Conventions of the embedding.

* A JavaScript number is a `JSNum`: `NaN`, the two infinities, or a finite
  value kept exactly as a rational.  Rounding to binary64 is not modelled;
  it plays no part for integers of magnitude below `2^53`.
* A JSON value reaching the code is a `JSVal`; `undefined` stands for a
  missing property or an index past the end of an array.
* `alertedPlayers` (a JavaScript `Set` of strings) is the list of its keys in
  insertion order.
* The wall clock is an input: the date string of `new Date().toDateString()`
  and the hour and minute of the day in the configured timezone.
-/

namespace FantasyAPN

/-! ## Numbers -/

/-- A JavaScript number. -/
inductive JSNum where
  | nan
  | negInf
  | fin (q : ℚ)
  | posInf
  deriving DecidableEq

namespace JSNum

/-- The relational operator `a <= b` on numbers: false as soon as one side is `NaN`. -/
def le : JSNum → JSNum → Bool
  | nan, _ => false
  | _, nan => false
  | negInf, _ => true
  | fin _, negInf => false
  | fin a, fin b => decide (a ≤ b)
  | fin _, posInf => true
  | posInf, posInf => true
  | posInf, _ => false

/-- The relational operator `a >= b` on numbers. -/
def ge (a b : JSNum) : Bool := le b a

/-- The number written by an integer literal. -/
def ofInt (n : Int) : JSNum := fin (n : ℚ)

/-- Truthiness of a number: `NaN` and zero are falsy. -/
def truthy : JSNum → Bool
  | nan => false
  | fin q => decide (q ≠ 0)
  | _ => true

/-- The expression `x || 0` for a number `x`. -/
def orZero (x : JSNum) : JSNum := if truthy x then x else fin 0

/-- Multiplication of numbers (`*`). -/
def mul : JSNum → JSNum → JSNum
  | nan, _ => nan
  | _, nan => nan
  | fin a, fin b => fin (a * b)
  | fin a, posInf => if a = 0 then nan else if 0 < a then posInf else negInf
  | fin a, negInf => if a = 0 then nan else if 0 < a then negInf else posInf
  | posInf, fin b => if b = 0 then nan else if 0 < b then posInf else negInf
  | negInf, fin b => if b = 0 then nan else if 0 < b then negInf else posInf
  | posInf, posInf => posInf
  | negInf, negInf => posInf
  | posInf, negInf => negInf
  | negInf, posInf => negInf

/-- Addition of numbers (`+` on two numbers). -/
def add : JSNum → JSNum → JSNum
  | nan, _ => nan
  | _, nan => nan
  | fin a, fin b => fin (a + b)
  | posInf, negInf => nan
  | negInf, posInf => nan
  | posInf, _ => posInf
  | _, posInf => posInf
  | negInf, _ => negInf
  | _, negInf => negInf

end JSNum

/-! ## Values and strings -/

/-- A JSON value as the code sees it; `undefined` is a missing property or an
array index past the end.  Numbers occurring as identifiers or as entries of
a stat array are integers. -/
inductive JSVal where
  | undefined
  | null
  | bool (b : Bool)
  | num (n : Int)
  | str (s : String)
  deriving DecidableEq

namespace JSVal

/-- The conversion `String(v)`, also applied by a template literal. -/
def toStr : JSVal → String
  | undefined => "undefined"
  | null => "null"
  | bool true => "true"
  | bool false => "false"
  | num n => toString n
  | str s => s

/-- Truthiness of a value. -/
def truthy : JSVal → Bool
  | undefined => false
  | null => false
  | bool b => b
  | num n => decide (n ≠ 0)
  | str s => decide (s ≠ "")

end JSVal

/-- The characters skipped by `parseInt` and `Number` around a numeral
(white space and line terminators). -/
def isStrWhiteSpace (c : Char) : Bool :=
  let n := c.toNat
  n = 9 || n = 10 || n = 11 || n = 12 || n = 13 || n = 32 || n = 160 ||
  n = 5760 || (8192 ≤ n && n ≤ 8202) || n = 8232 || n = 8233 || n = 8239 ||
  n = 8287 || n = 12288 || n = 65279

/-- The value of a character as a digit of the given radix (at most 16). -/
def digitValue (radix : Nat) (c : Char) : Option Nat :=
  let n := c.toNat
  let v : Option Nat :=
    if 48 ≤ n && n ≤ 57 then some (n - 48)
    else if 97 ≤ n && n ≤ 102 then some (n - 87)
    else if 65 ≤ n && n ≤ 70 then some (n - 55)
    else none
  match v with
  | some d => if d < radix then some d else none
  | none => none

/-- The integer written by a run of digits in the given radix. -/
def digitsValue (radix : Nat) (cs : List Char) : Nat :=
  cs.foldl (fun acc c => acc * radix + (digitValue radix c).getD 0) 0

/-- The builtin `parseInt(string)` without a radix argument: skip leading
white space, read an optional sign, switch to radix 16 after `0x`, and read
the longest run of digits; `NaN` when that run is empty. -/
def parseInt (input : List Char) : JSNum :=
  let s := input.dropWhile isStrWhiteSpace
  let signed : Bool × List Char :=
    match s with
    | '-' :: r => (true, r)
    | '+' :: r => (false, r)
    | _ => (false, s)
  let based : Nat × List Char :=
    match signed.2 with
    | '0' :: 'x' :: r => (16, r)
    | '0' :: 'X' :: r => (16, r)
    | r => (10, r)
  let z := based.2.takeWhile (fun c => (digitValue based.1 c).isSome)
  if z.isEmpty then JSNum.nan
  else
    let v : Int := digitsValue based.1 z
    JSNum.ofInt (if signed.1 then -v else v)

/-- The call `parseInt(v)` on a value: the argument is first converted to a string. -/
def parseIntOf (v : JSVal) : JSNum := parseInt v.toStr.toList

/-! ## Player observations -/

/-- The object `playerStats` built in `processGame` (`monitor.js:212-226`),
with the property `isAvailable` that line 232 adds (`none` while unset). -/
structure PlayerStats where
  id : JSVal
  name : JSVal
  team : JSVal
  game : JSVal
  gameId : JSVal
  minutes : JSVal
  points : JSNum
  rebounds : JSNum
  assists : JSNum
  threePointers : JSNum
  steals : JSNum
  blocks : JSNum
  turnovers : JSNum
  isAvailable : Option Bool
  deriving DecidableEq

/-- An element of `team.statistics[0].athletes`: the fields `athlete.id` and
`athlete.displayName` of the entry and its `stats` array (`none` when the
entry has no `stats`). -/
structure Athlete where
  id : JSVal
  displayName : JSVal
  stats : Option (List JSVal)
  deriving DecidableEq

/-- The indexing `stats[i]`. -/
def statAt (stats : List JSVal) (i : Nat) : JSVal := stats.getD i JSVal.undefined

/-- The expression `stats[2] ? parseInt(stats[2].split('-')[0]) : 0` of line
222; `none` when it throws a `TypeError` (a truthy entry without `split`). -/
def threePointersOf (v : JSVal) : Option JSNum :=
  if v.truthy then
    match v with
    | JSVal.str s => some (parseInt (s.toList.takeWhile (fun c => c != '-')))
    | _ => none
  else some (JSNum.fin 0)

/-- The object literal of `monitor.js:208-226`; `none` when evaluating it
throws a `TypeError` (no `stats`, or a three-pointers entry without `split`). -/
def extractPlayerStats (gameId gameName teamName : JSVal) (athlete : Athlete) :
    Option PlayerStats :=
  match athlete.stats with
  | none => none
  | some stats =>
    match threePointersOf (statAt stats 2) with
    | none => none
    | some threes =>
      some
        { id := athlete.id
          name := athlete.displayName
          team := teamName
          game := gameName
          gameId := gameId
          minutes := if (statAt stats 0).truthy then statAt stats 0 else JSVal.str "0"
          points := (parseIntOf (statAt stats 13)).orZero
          rebounds := (parseIntOf (statAt stats 6)).orZero
          assists := (parseIntOf (statAt stats 7)).orZero
          threePointers := threes
          steals := (parseIntOf (statAt stats 8)).orZero
          blocks := (parseIntOf (statAt stats 9)).orZero
          turnovers := (parseIntOf (statAt stats 10)).orZero
          isAvailable := none }

/-! ## Threshold evaluation -/

/-- The object `config.thresholds`. -/
structure Thresholds where
  points : JSNum
  rebounds : JSNum
  assists : JSNum
  threePointers : JSNum
  steals : JSNum
  blocks : JSNum
  turnovers : JSNum
  deriving DecidableEq

/-- The function `meetsThresholds(player)` of `monitor.js:258-269`, with
`config.thresholds` passed as `t`. -/
def meetsThresholds (t : Thresholds) (player : PlayerStats) : Bool :=
  JSNum.ge player.points t.points &&
  JSNum.ge player.rebounds t.rebounds &&
  JSNum.ge player.assists t.assists &&
  JSNum.ge player.threePointers t.threePointers &&
  JSNum.ge player.steals t.steals &&
  JSNum.ge player.blocks t.blocks &&
  JSNum.le player.turnovers t.turnovers

/-! ## Roster classification and same-day deduplication -/

/-- The roster test of line 231:
`rosteredPlayerIds.some(id => String(id) === String(playerId))`. -/
def isRostered (rosteredPlayerIds : List JSVal) (playerId : JSVal) : Bool :=
  rosteredPlayerIds.any (fun id => id.toStr == playerId.toStr)

/-- The flag of line 232: `playerStats.isAvailable = !isRostered`. -/
def isAvailable (rosteredPlayerIds : List JSVal) (playerId : JSVal) : Bool :=
  !isRostered rosteredPlayerIds playerId

/-- The template literal of line 237, with the result of
`new Date().toDateString()` passed as `today`. -/
def alertKey (playerId : JSVal) (today : String) : String :=
  playerId.toStr ++ "-" ++ today

/-- The dedup step of lines 237-241 on the set `alertedPlayers`: build the
key, test membership, insert when absent.  The flag tells whether the player
was accepted. -/
def dedupStep (alertedPlayers : List String) (playerId : JSVal) (today : String) :
    Bool × List String :=
  let key := alertKey playerId today
  if alertedPlayers.contains key then (false, alertedPlayers)
  else (true, alertedPlayers ++ [key])

/-! ## Processing one game -/

/-- The mutable data of one `processGame` call: the module-level set
`alertedPlayers` and the local array `alertPlayers`. -/
structure LoopState where
  alertedPlayers : List String
  alertPlayers : List PlayerStats
  deriving DecidableEq

/-- Lines 228-243: what the athlete callback does with an extracted
`playerStats`. -/
def alertStep (thresholds : Thresholds) (rosteredPlayerIds : List JSVal) (today : String)
    (st : LoopState) (playerStats : PlayerStats) : LoopState :=
  if meetsThresholds thresholds playerStats then
    let available := isAvailable rosteredPlayerIds playerStats.id
    let flagged : PlayerStats := { playerStats with isAvailable := some available }
    if available || rosteredPlayerIds.length == 0 then
      let r := dedupStep st.alertedPlayers playerStats.id today
      if r.1 then
        { alertedPlayers := r.2, alertPlayers := st.alertPlayers ++ [flagged] }
      else st
    else st
  else st

/-- The inner `forEach` of lines 207-244 over the athletes of one team.  The
flag is `false` when an extraction threw: the loop stops there and the state
reached so far stays. -/
def forEachAthlete (thresholds : Thresholds) (rosteredPlayerIds : List JSVal) (today : String)
    (gameId gameName teamName : JSVal) : List Athlete → LoopState → LoopState × Bool
  | [], st => (st, true)
  | athlete :: rest, st =>
    match extractPlayerStats gameId gameName teamName athlete with
    | none => (st, false)
    | some playerStats =>
      forEachAthlete thresholds rosteredPlayerIds today gameId gameName teamName rest
        (alertStep thresholds rosteredPlayerIds today st playerStats)

/-- An element of `gameData.boxscore.players`: `team.team.displayName` and
the array `team.statistics[0].athletes` (`none` when the guard of line 206
fails). -/
structure Team where
  displayName : JSVal
  athletes : Option (List Athlete)
  deriving DecidableEq

/-- The outer `forEach` of lines 203-246 over the teams of a box score. -/
def forEachTeam (thresholds : Thresholds) (rosteredPlayerIds : List JSVal) (today : String)
    (gameId gameName : JSVal) : List Team → LoopState → LoopState × Bool
  | [], st => (st, true)
  | team :: rest, st =>
    match team.athletes with
    | none => forEachTeam thresholds rosteredPlayerIds today gameId gameName rest st
    | some athletes =>
      let r := forEachAthlete thresholds rosteredPlayerIds today gameId gameName
        team.displayName athletes st
      if r.2 then forEachTeam thresholds rosteredPlayerIds today gameId gameName rest r.1
      else (r.1, false)

/-- The body `response.data` of a game summary: `boxscore.players`, `none`
when the guard of line 197 finds no box score. -/
structure GameData where
  players : Option (List Team)
  deriving DecidableEq

/-- What a `processGame` call leaves: the set `alertedPlayers` after the call
and the array it returns. -/
structure GameResult where
  alertedPlayers : List String
  alerts : List PlayerStats
  deriving DecidableEq

/-- The function `processGame(gameId, gameName)` of `monitor.js:191-253`.
`response` is what `axios.get` yields (`none` when the request fails).  Any
exception is caught by the `try` of line 192 and the call returns `[]`; keys
added to `alertedPlayers` before the exception stay.  `today` is the date
string every `new Date().toDateString()` of the call yields. -/
def processGame (thresholds : Thresholds) (rosteredPlayerIds : List JSVal) (today : String)
    (gameId gameName : JSVal) (response : Option GameData) (alertedPlayers : List String) :
    GameResult :=
  match response with
  | none => { alertedPlayers := alertedPlayers, alerts := [] }
  | some gameData =>
    match gameData.players with
    | none => { alertedPlayers := alertedPlayers, alerts := [] }
    | some teams =>
      let r := forEachTeam thresholds rosteredPlayerIds today gameId gameName teams
        { alertedPlayers := alertedPlayers, alertPlayers := [] }
      if r.2 then { alertedPlayers := r.1.alertedPlayers, alerts := r.1.alertPlayers }
      else { alertedPlayers := r.1.alertedPlayers, alerts := [] }

/-- An element of the schedule returned by `fetchTodayGames`, together with
the answer its summary request gets when it is processed. -/
structure Game where
  id : JSVal
  shortName : JSVal
  response : Option GameData
  deriving DecidableEq

/-- A sequence of `processGame` calls on the same day, each starting from the
set `alertedPlayers` the previous one left: the batches they return, in order. -/
def processGames (thresholds : Thresholds) (rosteredPlayerIds : List JSVal) (today : String) :
    List Game → List String → List (List PlayerStats)
  | [], _ => []
  | game :: rest, alertedPlayers =>
    let r := processGame thresholds rosteredPlayerIds today game.id game.shortName
      game.response alertedPlayers
    r.alerts :: processGames thresholds rosteredPlayerIds today rest r.alertedPlayers

/-! ## The game-time window -/

/-- Negation of a number (the sign of a numeral). -/
def JSNum.neg : JSNum → JSNum
  | JSNum.nan => JSNum.nan
  | JSNum.negInf => JSNum.posInf
  | JSNum.fin q => JSNum.fin (-q)
  | JSNum.posInf => JSNum.negInf

/-- Whether a non-empty run of characters consists of digits of the radix. -/
def isDigitRun (radix : Nat) (cs : List Char) : Bool :=
  !cs.isEmpty && cs.all (fun c => (digitValue radix c).isSome)

/-- The exponent after `e` or `E` in a decimal numeral: an optionally signed
run of decimal digits. -/
def exponentValue : List Char → Option Int
  | '+' :: ds => if isDigitRun 10 ds then some (digitsValue 10 ds : Int) else none
  | '-' :: ds => if isDigitRun 10 ds then some (-(digitsValue 10 ds : Int)) else none
  | ds => if isDigitRun 10 ds then some (digitsValue 10 ds : Int) else none

/-- The number `n * 10 ^ e`. -/
def scaleByTen (n : Nat) (e : Int) : JSNum :=
  if 0 ≤ e then JSNum.ofInt ((n : Int) * 10 ^ e.toNat)
  else JSNum.fin ((n : ℚ) / 10 ^ (-e).toNat)

/-- An unsigned decimal numeral: `Infinity`, or digits with an optional
fraction and an optional exponent; `NaN` for anything else. -/
def unsignedDecimal (cs : List Char) : JSNum :=
  if cs = "Infinity".toList then JSNum.posInf
  else
    let isDec := fun c => (digitValue 10 c).isSome
    let intPart := cs.takeWhile isDec
    let afterInt := cs.dropWhile isDec
    let frac : List Char × List Char :=
      match afterInt with
      | '.' :: r => (r.takeWhile isDec, r.dropWhile isDec)
      | r => ([], r)
    if intPart.isEmpty && frac.1.isEmpty then JSNum.nan
    else
      let mantissa := digitsValue 10 (intPart ++ frac.1)
      match frac.2 with
      | [] => scaleByTen mantissa (-(frac.1.length : Int))
      | c :: r =>
        if c = 'e' || c = 'E' then
          match exponentValue r with
          | some e => scaleByTen mantissa (e - (frac.1.length : Int))
          | none => JSNum.nan
        else JSNum.nan

/-- The builtin `Number(string)`: white space is trimmed at both ends, the
empty string is `0`, then a numeral with prefix `0x`, `0o` or `0b`, or an
optionally signed decimal numeral; `NaN` for anything else. -/
def jsNumber (input : List Char) : JSNum :=
  let s := ((input.dropWhile isStrWhiteSpace).reverse.dropWhile isStrWhiteSpace).reverse
  match s with
  | [] => JSNum.fin 0
  | '0' :: 'x' :: r => if isDigitRun 16 r then JSNum.ofInt (digitsValue 16 r) else JSNum.nan
  | '0' :: 'X' :: r => if isDigitRun 16 r then JSNum.ofInt (digitsValue 16 r) else JSNum.nan
  | '0' :: 'o' :: r => if isDigitRun 8 r then JSNum.ofInt (digitsValue 8 r) else JSNum.nan
  | '0' :: 'O' :: r => if isDigitRun 8 r then JSNum.ofInt (digitsValue 8 r) else JSNum.nan
  | '0' :: 'b' :: r => if isDigitRun 2 r then JSNum.ofInt (digitsValue 2 r) else JSNum.nan
  | '0' :: 'B' :: r => if isDigitRun 2 r then JSNum.ofInt (digitsValue 2 r) else JSNum.nan
  | '+' :: r => unsignedDecimal r
  | '-' :: r => (unsignedDecimal r).neg
  | r => unsignedDecimal r

/-- The method `split(sep)` with a one-character separator. -/
def splitAt (sep : Char) : List Char → List (List Char)
  | [] => [[]]
  | c :: cs =>
    if c = sep then [] :: splitAt sep cs
    else
      match splitAt sep cs with
      | part :: parts => (c :: part) :: parts
      | [] => [[c]]

/-- The object `config.monitoring`, as far as the window gate reads it. -/
structure Monitoring where
  onlyDuringGameTimes : Bool
  gameTimeStart : String
  gameTimeEnd : String
  deriving DecidableEq

/-- The minutes of the day written by `"HH:MM"`, as lines 283-288 compute
them: `split(':').map(Number)`, the first two parts, `hour * 60 + min`.  A
missing second part is `undefined` and makes the sum `NaN`. -/
def minutesOfDay (hhmm : String) : JSNum :=
  let parts := (splitAt ':' hhmm.toList).map jsNumber
  JSNum.add (JSNum.mul (parts.getD 0 JSNum.nan) (JSNum.fin 60)) (parts.getD 1 JSNum.nan)

/-- The function `isWithinGameTime()` of `monitor.js:274-291`; `hours` and
`minutes` are `getHours()` and `getMinutes()` of the current time in the
configured timezone. -/
def isWithinGameTime (monitoring : Monitoring) (hours minutes : Nat) : Bool :=
  if !monitoring.onlyDuringGameTimes then true
  else
    let currentMinutes :=
      JSNum.add (JSNum.mul (JSNum.ofInt hours) (JSNum.fin 60)) (JSNum.ofInt minutes)
    let startMinutes := minutesOfDay monitoring.gameTimeStart
    let endMinutes := minutesOfDay monitoring.gameTimeEnd
    JSNum.ge currentMinutes startMinutes && JSNum.le currentMinutes endMinutes

/-! ## The monitoring cycle -/

/-- The calls a cycle makes to its collaborators, in order. -/
inductive Effect where
  | fetchTodayGames
  | fetchSummary (gameId : JSVal)
  | sendAlertEmail (players : List PlayerStats)
  | sendMail (subject : String) (players : List PlayerStats)
  deriving DecidableEq

/-- The function `sendAlertEmail(players)` of `monitor.js:72-157`: nothing
for an empty list, otherwise one `sendMail` whose subject names the single
player or the number of players. -/
def sendAlertEmail (players : List PlayerStats) : List Effect :=
  match players with
  | [] => []
  | [player] => [Effect.sendMail ("🏀 FANTASY ALERT: " ++ player.name.toStr ++ " Available!") players]
  | _ =>
    [Effect.sendMail ("🏀 FANTASY ALERT: " ++ toString players.length ++ " Players Available!")
      players]

/-- The configuration read by the cycle. -/
structure Config where
  thresholds : Thresholds
  monitoring : Monitoring
  deriving DecidableEq

/-- What one cycle leaves: the set `alertedPlayers` and the collaborator calls made. -/
structure CycleResult where
  alertedPlayers : List String
  effects : List Effect
  deriving DecidableEq

/-- The `for` loop of lines 318-325: each game is fetched and processed in
turn and its alerts are appended to `allAlerts`. -/
def gamesLoop (config : Config) (rosteredPlayerIds : List JSVal) (today : String) :
    List Game → List String → List PlayerStats → List Effect →
    List String × List PlayerStats × List Effect
  | [], alertedPlayers, allAlerts, effects => (alertedPlayers, allAlerts, effects)
  | game :: rest, alertedPlayers, allAlerts, effects =>
    let r := processGame config.thresholds rosteredPlayerIds today game.id game.shortName
      game.response alertedPlayers
    gamesLoop config rosteredPlayerIds today rest r.alertedPlayers (allAlerts ++ r.alerts)
      (effects ++ [Effect.fetchSummary game.id])

/-- The function `monitorGames()` of `monitor.js:296-337`.  `games` is the
result of `fetchTodayGames()` (empty when that request fails). -/
def monitorGames (config : Config) (rosteredPlayerIds : List JSVal) (hours minutes : Nat)
    (today : String) (games : List Game) (alertedPlayers : List String) : CycleResult :=
  if !isWithinGameTime config.monitoring hours minutes then
    { alertedPlayers := alertedPlayers, effects := [] }
  else if games.length == 0 then
    { alertedPlayers := alertedPlayers, effects := [Effect.fetchTodayGames] }
  else
    let r := gamesLoop config rosteredPlayerIds today games alertedPlayers []
      [Effect.fetchTodayGames]
    if r.2.1.length > 0 then
      { alertedPlayers := r.1
        effects := r.2.2 ++ Effect.sendAlertEmail r.2.1 :: sendAlertEmail r.2.1 }
    else { alertedPlayers := r.1, effects := r.2.2 }

/-! ## The order of numbers -/

/-- The position of a number in the extended rational line; `none` for `NaN`. -/
def JSNum.value : JSNum → Option (WithBot (WithTop ℚ))
  | JSNum.nan => none
  | JSNum.negInf => some ⊥
  | JSNum.fin q => some ((q : WithTop ℚ) : WithBot (WithTop ℚ))
  | JSNum.posInf => some ((⊤ : WithTop ℚ) : WithBot (WithTop ℚ))

/-- Both sides are numbers and `a` is at most `b`. -/
def JSNum.AtMost (a b : JSNum) : Prop :=
  ∃ x y, a.value = some x ∧ b.value = some y ∧ x ≤ y

/-- Both sides are numbers and `a` is at least `b`. -/
def JSNum.AtLeast (a b : JSNum) : Prop := JSNum.AtMost b a

/-- The observations `new` are what a run from `st` to `st'` has appended to
`alertPlayers`; their keys, none of which was in `alertedPlayers` before, are
what it has appended to `alertedPlayers`. -/
structure Adds (thresholds : Thresholds) (rosteredPlayerIds : List JSVal) (today : String)
    (st st' : LoopState) (new : List PlayerStats) : Prop where
  alerts_eq : st'.alertPlayers = st.alertPlayers ++ new
  keys_eq : st'.alertedPlayers = st.alertedPlayers ++ new.map (fun p => alertKey p.id today)
  fresh : ∀ p ∈ new, alertKey p.id today ∉ st.alertedPlayers
  nodup : (new.map (fun p => p.id.toStr)).Nodup
  accepted : ∀ p ∈ new, isRostered rosteredPlayerIds p.id = false ∧
    p.isAvailable = some true ∧ meetsThresholds thresholds p = true

/-! ## Times of day written as `"HH:MM"` -/

/-- The two decimal digits of a number below 100. -/
def twoDigits (n : Nat) : List Char := [Char.ofNat (48 + n / 10), Char.ofNat (48 + n % 10)]

/-- The string `"HH:MM"` for an hour and a minute, two digits each. -/
def hhmm (hour minute : Nat) : String := String.mk (twoDigits hour ++ ':' :: twoDigits minute)

/-! ## Reading a trace of effects -/

/-- The arguments of the invocations of `sendAlertEmail` in a trace, in order. -/
def notifierCalls : List Effect → List (List PlayerStats)
  | [] => []
  | Effect.sendAlertEmail players :: rest => players :: notifierCalls rest
  | _ :: rest => notifierCalls rest

/-! ## Sample data -/

/-- The thresholds of the end-to-end scenarios: 20 points, no other minimum,
at most 99 turnovers. -/
def sampleThresholds : Thresholds :=
  { points := JSNum.fin 20, rebounds := JSNum.fin 0, assists := JSNum.fin 0,
    threePointers := JSNum.fin 0, steals := JSNum.fin 0, blocks := JSNum.fin 0,
    turnovers := JSNum.fin 99 }

/-- A stat array with 25 points and 3 turnovers, every other count zero. -/
def sampleStats : List JSVal :=
  [JSVal.str "30", JSVal.str "0-0", JSVal.str "0-0", JSVal.str "0-0", JSVal.str "0",
    JSVal.str "0", JSVal.str "0", JSVal.str "0", JSVal.str "0", JSVal.str "0",
    JSVal.str "3", JSVal.str "0", JSVal.str "0", JSVal.str "25"]

/-- An athlete entry with the identifier 123 and the sample stat array. -/
def sampleAthlete : Athlete :=
  { id := JSVal.num 123, displayName := JSVal.str "A. Player", stats := some sampleStats }

/-- A team whose only athlete is the sample athlete. -/
def sampleTeam : Team :=
  { displayName := JSVal.str "Home", athletes := some [sampleAthlete] }

/-- The observation extracted from the sample athlete. -/
def samplePlayer : PlayerStats :=
  { id := JSVal.num 123, name := JSVal.str "A. Player", team := JSVal.str "Home",
    game := JSVal.str "AWY @ HOM", gameId := JSVal.str "401", minutes := JSVal.str "30",
    points := JSNum.fin 25, rebounds := JSNum.fin 0, assists := JSNum.fin 0,
    threePointers := JSNum.fin 0, steals := JSNum.fin 0, blocks := JSNum.fin 0,
    turnovers := JSNum.fin 3, isAvailable := none }

/-- A stat array whose three-pointers entry is the non-numeric string "abc";
25 points and 3 turnovers as in the sample. -/
def malformedThreesStats : List JSVal :=
  [JSVal.str "30", JSVal.str "0-0", JSVal.str "abc", JSVal.str "0-0", JSVal.str "0",
    JSVal.str "0", JSVal.str "0", JSVal.str "0", JSVal.str "0", JSVal.str "0",
    JSVal.str "3", JSVal.str "0", JSVal.str "0", JSVal.str "25"]

/-- A stat array whose rebounds entry is the non-numeric string "abc" and
whose assists entry is missing. -/
def malformedReboundsStats : List JSVal :=
  [JSVal.str "30", JSVal.str "0-0", JSVal.str "0-0", JSVal.str "0-0", JSVal.str "0",
    JSVal.str "0", JSVal.str "abc", JSVal.undefined, JSVal.str "0", JSVal.str "0",
    JSVal.str "3", JSVal.str "0", JSVal.str "0", JSVal.str "25"]

/-- A configuration with the sample thresholds and window gating switched off. -/
def sampleConfig : Config :=
  { thresholds := sampleThresholds
    monitoring := { onlyDuringGameTimes := false, gameTimeStart := "18:00",
                    gameTimeEnd := "23:59" } }

/-- A schedule of one game whose box score holds the sample team. -/
def sampleGames : List Game :=
  [{ id := JSVal.str "401", shortName := JSVal.str "AWY @ HOM",
     response := some { players := some [sampleTeam] } }]

/-! ## The roster fetcher: `extractRosteredPlayerIds` -/

/-- An element of `team.roster.entries` in the season data: its `playerId`
(`undefined` when the entry has none). -/
structure RosterEntry where
  playerId : JSVal
  deriving DecidableEq

/-- The object `team.roster`: its array `entries`, `none` when missing. -/
structure TeamRoster where
  entries : Option (List RosterEntry)
  deriving DecidableEq

/-- An element of `data.rosters`: its `roster`, `none` when missing. -/
structure RosterTeam where
  roster : Option TeamRoster
  deriving DecidableEq

/-- The season data object, as far as the extraction reads it: the array
`data.rosters`, `none` when missing. -/
structure SeasonData where
  rosters : Option (List RosterTeam)
  deriving DecidableEq

/-- The method `add` of a `Set`, kept as the list of its elements in insertion
order: a value already present is not added again. -/
def setAdd (set : List JSVal) (v : JSVal) : List JSVal :=
  if set.contains v then set else set ++ [v]

/-- The expression `team.roster?.entries || []` of line 155. -/
def entriesOf (team : RosterTeam) : List RosterEntry :=
  match team.roster with
  | none => []
  | some roster => roster.entries.getD []

/-- The inner `forEach` of lines 156-160 of `historical_roster_fetcher.js`. -/
def addEntries : List RosterEntry → List JSVal → List JSVal
  | [], rosteredPlayers => rosteredPlayers
  | entry :: rest, rosteredPlayers =>
    addEntries rest
      (if entry.playerId.truthy then setAdd rosteredPlayers entry.playerId
       else rosteredPlayers)

/-- The outer `forEach` of lines 154-161 over `data.rosters`. -/
def addTeams : List RosterTeam → List JSVal → List JSVal
  | [], rosteredPlayers => rosteredPlayers
  | team :: rest, rosteredPlayers => addTeams rest (addEntries (entriesOf team) rosteredPlayers)

/-- The function `extractRosteredPlayerIds(data)` of
`historical_roster_fetcher.js:149-164`; `data` is `none` when it is `null`. -/
def extractRosteredPlayerIds (data : Option SeasonData) : List JSVal :=
  match data with
  | none => []
  | some d =>
    match d.rosters with
    | none => []
    | some teams => addTeams teams []

/-- Season data with one team whose only roster entry has the player identifier 0. -/
def zeroIdSeason : SeasonData :=
  { rosters := some [{ roster := some { entries := some [{ playerId := JSVal.num 0 }] } }] }

/-! ## Further vocabulary -/

/-- Both sides are numbers and `a` is strictly greater than `b`. -/
def JSNum.Greater (a b : JSNum) : Prop :=
  ∃ x y, a.value = some x ∧ b.value = some y ∧ y < x

/-- The athlete callback of lines 228-243 with the guard of line 235 reduced
to `playerStats.isAvailable` alone. -/
def alertStepAvailableOnly (thresholds : Thresholds) (rosteredPlayerIds : List JSVal)
    (today : String) (st : LoopState) (playerStats : PlayerStats) : LoopState :=
  if meetsThresholds thresholds playerStats then
    let available := isAvailable rosteredPlayerIds playerStats.id
    let flagged : PlayerStats := { playerStats with isAvailable := some available }
    if available then
      let r := dedupStep st.alertedPlayers playerStats.id today
      if r.1 then
        { alertedPlayers := r.2, alertPlayers := st.alertPlayers ++ [flagged] }
      else st
    else st
  else st

/-- A team whose only athlete entry has no `stats` field. -/
def statlessTeam : Team :=
  { displayName := JSVal.str "Away"
    athletes := some [{ id := JSVal.num 9, displayName := JSVal.str "B. Player",
                        stats := none }] }

/-- A window that spans midnight: gating on, from 22:00 to 02:00. -/
def overnightWindow : Monitoring :=
  { onlyDuringGameTimes := true, gameTimeStart := "22:00", gameTimeEnd := "02:00" }

theorem JSNum.le_eq_true_iff (a b : JSNum) : JSNum.le a b = true ↔ JSNum.AtMost a b := by
  cases a <;> cases b <;> simp [JSNum.le, JSNum.AtMost, JSNum.value]

theorem JSNum.ge_eq_true_iff (a b : JSNum) : JSNum.ge a b = true ↔ JSNum.AtLeast a b :=
  JSNum.le_eq_true_iff b a

theorem JSNum.ge_eq_false_iff (a b : JSNum) : JSNum.ge a b = false ↔ ¬ JSNum.AtLeast a b := by
  rw [← JSNum.ge_eq_true_iff]; simp

theorem JSNum.le_eq_false_iff (a b : JSNum) : JSNum.le a b = false ↔ ¬ JSNum.AtMost a b := by
  rw [← JSNum.le_eq_true_iff]; simp

theorem JSNum.atMost_fin (a b : ℚ) : JSNum.AtMost (JSNum.fin a) (JSNum.fin b) ↔ a ≤ b := by
  simp [JSNum.AtMost, JSNum.value]

theorem JSNum.not_atMost_nan_left (b : JSNum) : ¬ JSNum.AtMost JSNum.nan b := by
  simp [JSNum.AtMost, JSNum.value]

theorem JSNum.not_atMost_nan_right (a : JSNum) : ¬ JSNum.AtMost a JSNum.nan := by
  simp [JSNum.AtMost, JSNum.value]

/-! ## C1: threshold evaluation -/

/-- C1. `meetsThresholds` returns true exactly when the six minimum
comparisons and the turnover maximum all hold; and from an observation that
passes, replacing any one statistic by a value that violates its bound makes
the result false. -/
theorem meetsThresholds_iff_all_seven (t : Thresholds) (p : PlayerStats) :
    (meetsThresholds t p = true ↔
      JSNum.AtLeast p.points t.points ∧ JSNum.AtLeast p.rebounds t.rebounds ∧
      JSNum.AtLeast p.assists t.assists ∧ JSNum.AtLeast p.threePointers t.threePointers ∧
      JSNum.AtLeast p.steals t.steals ∧ JSNum.AtLeast p.blocks t.blocks ∧
      JSNum.AtMost p.turnovers t.turnovers) ∧
    (meetsThresholds t p = true →
      (∀ v, ¬ JSNum.AtLeast v t.points → meetsThresholds t { p with points := v } = false) ∧
      (∀ v, ¬ JSNum.AtLeast v t.rebounds → meetsThresholds t { p with rebounds := v } = false) ∧
      (∀ v, ¬ JSNum.AtLeast v t.assists → meetsThresholds t { p with assists := v } = false) ∧
      (∀ v, ¬ JSNum.AtLeast v t.threePointers →
        meetsThresholds t { p with threePointers := v } = false) ∧
      (∀ v, ¬ JSNum.AtLeast v t.steals → meetsThresholds t { p with steals := v } = false) ∧
      (∀ v, ¬ JSNum.AtLeast v t.blocks → meetsThresholds t { p with blocks := v } = false) ∧
      (∀ v, ¬ JSNum.AtMost v t.turnovers →
        meetsThresholds t { p with turnovers := v } = false)) := by
  refine ⟨?_, fun _ => ⟨?_, ?_, ?_, ?_, ?_, ?_, ?_⟩⟩
  · simp only [meetsThresholds, Bool.and_eq_true, JSNum.ge_eq_true_iff, JSNum.le_eq_true_iff]
    tauto
  all_goals
    intro v hv
    first
      | rw [← JSNum.ge_eq_false_iff] at hv
      | rw [← JSNum.le_eq_false_iff] at hv
    simp [meetsThresholds, hv]

/-! ## Alert keys -/

theorem alertKey_data (playerId : JSVal) (today : String) :
    (alertKey playerId today).data = playerId.toStr.data ++ '-' :: today.data := by
  simp [alertKey, String.data_append]

/-- For one player, different days give different keys. -/
theorem alertKey_day_injective (playerId : JSVal) (day1 day2 : String)
    (h : alertKey playerId day1 = alertKey playerId day2) : day1 = day2 := by
  have hd := congrArg String.data h
  rw [alertKey_data, alertKey_data] at hd
  have := List.append_cancel_left hd
  simp only [List.cons.injEq, true_and] at this
  exact String.ext this

/-- On one day, equal keys belong to identifiers with the same string form. -/
theorem alertKey_id_injective (id1 id2 : JSVal) (today : String)
    (h : alertKey id1 today = alertKey id2 today) : id1.toStr = id2.toStr := by
  have hd := congrArg String.data h
  rw [alertKey_data, alertKey_data] at hd
  have h1 : id1.toStr.data ++ ('-' :: today.data) = id2.toStr.data ++ ('-' :: today.data) := hd
  exact String.ext (List.append_cancel_right h1)

theorem alertKey_congr (id1 id2 : JSVal) (today : String) (h : id1.toStr = id2.toStr) :
    alertKey id1 today = alertKey id2 today := by
  simp [alertKey, h]

theorem dedupStep_fst (alertedPlayers : List String) (playerId : JSVal) (today : String) :
    (dedupStep alertedPlayers playerId today).1 = true ↔
      alertKey playerId today ∉ alertedPlayers := by
  by_cases h : alertKey playerId today ∈ alertedPlayers <;> simp [dedupStep, h]

theorem dedupStep_snd_mem (alertedPlayers : List String) (playerId : JSVal) (today : String)
    (k : String) :
    k ∈ (dedupStep alertedPlayers playerId today).2 ↔
      k ∈ alertedPlayers ∨ k = alertKey playerId today := by
  by_cases h : alertKey playerId today ∈ alertedPlayers
  · have hc : alertedPlayers.contains (alertKey playerId today) = true := by simpa using h
    simp only [dedupStep, hc, if_true]
    constructor
    · exact Or.inl
    · rintro (hk | rfl)
      · exact hk
      · exact h
  · simp [dedupStep, h]

/-! ## C2, C3: the dedup step -/

/-- C2. Running the dedup step twice with the same identifier and the same
date: the first run accepts exactly when the key was absent, the key is in
the set afterwards, the second run rejects; from a set without the key the
two results are (true, false). -/
theorem dedupStep_twice_same_day (alertedPlayers : List String) (playerId : JSVal)
    (today : String) :
    ((dedupStep alertedPlayers playerId today).1 = true ↔
      alertKey playerId today ∉ alertedPlayers) ∧
    alertKey playerId today ∈ (dedupStep alertedPlayers playerId today).2 ∧
    (dedupStep (dedupStep alertedPlayers playerId today).2 playerId today).1 = false ∧
    (alertKey playerId today ∉ alertedPlayers →
      ((dedupStep alertedPlayers playerId today).1,
        (dedupStep (dedupStep alertedPlayers playerId today).2 playerId today).1) =
        (true, false)) := by
  have hmem : alertKey playerId today ∈ (dedupStep alertedPlayers playerId today).2 :=
    (dedupStep_snd_mem _ _ _ _).2 (Or.inr rfl)
  have hsecond :
      (dedupStep (dedupStep alertedPlayers playerId today).2 playerId today).1 = false := by
    rw [← Bool.not_eq_true, dedupStep_fst]
    exact fun h => h hmem
  refine ⟨dedupStep_fst _ _ _, hmem, hsecond, fun habs => ?_⟩
  rw [hsecond, (dedupStep_fst _ _ _).2 habs]

/-- C3. For one player and two different date strings, from a set holding no
key of that player, the dedup step accepts on the first day and again on the
second. -/
theorem dedupStep_cross_day (alertedPlayers : List String) (playerId : JSVal)
    (day1 day2 : String) (hdays : day1 ≠ day2)
    (hfresh : ∀ day, alertKey playerId day ∉ alertedPlayers) :
    ((dedupStep alertedPlayers playerId day1).1,
      (dedupStep (dedupStep alertedPlayers playerId day1).2 playerId day2).1) =
      (true, true) := by
  have h1 : (dedupStep alertedPlayers playerId day1).1 = true :=
    (dedupStep_fst _ _ _).2 (hfresh day1)
  have h2 : (dedupStep (dedupStep alertedPlayers playerId day1).2 playerId day2).1 = true := by
    rw [dedupStep_fst, dedupStep_snd_mem]
    rintro (h | h)
    · exact hfresh day2 h
    · exact hdays (alertKey_day_injective _ _ _ h).symm
  rw [h1, h2]

theorem dedupStep_cross_day_witness :
    "Fri Nov 06 2026" ≠ "Sat Nov 07 2026" ∧
    (∀ day, alertKey (JSVal.num 7) day ∉ ([] : List String)) ∧
    ((dedupStep [] (JSVal.num 7) "Fri Nov 06 2026").1,
      (dedupStep (dedupStep [] (JSVal.num 7) "Fri Nov 06 2026").2 (JSVal.num 7)
        "Sat Nov 07 2026").1) = (true, true) :=
  ⟨by decide, fun _ => List.not_mem_nil _,
    dedupStep_cross_day [] (JSVal.num 7) "Fri Nov 06 2026" "Sat Nov 07 2026" (by decide)
      (fun _ => List.not_mem_nil _)⟩

/-! ## C5: roster classification -/

theorem isRostered_iff (rosteredPlayerIds : List JSVal) (playerId : JSVal) :
    isRostered rosteredPlayerIds playerId = true ↔
      ∃ id ∈ rosteredPlayerIds, id.toStr = playerId.toStr := by
  simp [isRostered]

/-- C5. The roster classification reports a player as rostered
(`isAvailable = false`) exactly when some roster element has the same string
form as the player identifier; numeric 123 is rostered by the string "123",
and with an empty roster every player is available. -/
theorem isAvailable_false_iff (rosteredPlayerIds : List JSVal) (playerId : JSVal) :
    (isAvailable rosteredPlayerIds playerId = false ↔
      ∃ id ∈ rosteredPlayerIds, id.toStr = playerId.toStr) ∧
    isAvailable [JSVal.str "123"] (JSVal.num 123) = false ∧
    isAvailable [] playerId = true := by
  refine ⟨?_, ?_, ?_⟩
  · rw [← isRostered_iff]
    simp [isAvailable]
  · decide
  · simp [isAvailable, isRostered]

/-! ## What the loops of `processGame` add -/

theorem isRostered_congr (rosteredPlayerIds : List JSVal) (id1 id2 : JSVal)
    (h : id1.toStr = id2.toStr) :
    isRostered rosteredPlayerIds id1 = isRostered rosteredPlayerIds id2 := by
  simp [isRostered, h]

theorem Adds.refl (thresholds : Thresholds) (rosteredPlayerIds : List JSVal) (today : String)
    (st : LoopState) : Adds thresholds rosteredPlayerIds today st st [] :=
  { alerts_eq := by simp
    keys_eq := by simp
    fresh := by simp
    nodup := by simp
    accepted := by simp }

theorem Adds.trans {thresholds : Thresholds} {rosteredPlayerIds : List JSVal} {today : String}
    {st st' st'' : LoopState} {new new' : List PlayerStats}
    (h : Adds thresholds rosteredPlayerIds today st st' new)
    (h' : Adds thresholds rosteredPlayerIds today st' st'' new') :
    Adds thresholds rosteredPlayerIds today st st'' (new ++ new') := by
  refine ⟨?_, ?_, ?_, ?_, ?_⟩
  · rw [h'.alerts_eq, h.alerts_eq, List.append_assoc]
  · rw [h'.keys_eq, h.keys_eq, List.map_append, List.append_assoc]
  · intro p hp
    rcases List.mem_append.1 hp with hp | hp
    · exact h.fresh p hp
    · intro hk
      exact h'.fresh p hp (by rw [h.keys_eq]; exact List.mem_append_left _ hk)
  · rw [List.map_append]
    refine List.Nodup.append h.nodup h'.nodup ?_
    intro s hs hs'
    obtain ⟨p, hp, rfl⟩ := List.mem_map.1 hs
    obtain ⟨q, hq, hqp⟩ := List.mem_map.1 hs'
    refine h'.fresh q hq ?_
    rw [h.keys_eq, alertKey_congr q.id p.id today hqp]
    exact List.mem_append_right _ (List.mem_map.2 ⟨p, hp, rfl⟩)
  · intro p hp
    rcases List.mem_append.1 hp with hp | hp
    · exact h.accepted p hp
    · exact h'.accepted p hp

/-- The athlete callback appends the flagged observation and its key when the
observation meets the thresholds, the identifier is not rostered and the key
is absent. -/
theorem alertStep_push (thresholds : Thresholds) (rosteredPlayerIds : List JSVal)
    (today : String) (st : LoopState) (playerStats : PlayerStats)
    (hmeets : meetsThresholds thresholds playerStats = true)
    (hfree : isRostered rosteredPlayerIds playerStats.id = false)
    (hkey : alertKey playerStats.id today ∉ st.alertedPlayers) :
    alertStep thresholds rosteredPlayerIds today st playerStats =
      { alertedPlayers := st.alertedPlayers ++ [alertKey playerStats.id today]
        alertPlayers := st.alertPlayers ++ [{ playerStats with isAvailable := some true }] } := by
  simp [alertStep, hmeets, isAvailable, hfree, dedupStep, hkey]

/-- The athlete callback changes nothing in every other case. -/
theorem alertStep_skip (thresholds : Thresholds) (rosteredPlayerIds : List JSVal)
    (today : String) (st : LoopState) (playerStats : PlayerStats)
    (h : meetsThresholds thresholds playerStats = false ∨
      isRostered rosteredPlayerIds playerStats.id = true ∨
      alertKey playerStats.id today ∈ st.alertedPlayers) :
    alertStep thresholds rosteredPlayerIds today st playerStats = st := by
  rcases h with h | h | h
  · simp [alertStep, h]
  · have hne : rosteredPlayerIds ≠ [] := by
      rintro rfl
      simp [isRostered] at h
    simp [alertStep, isAvailable, h, hne]
  · simp [alertStep, dedupStep, h]

theorem alertStep_adds (thresholds : Thresholds) (rosteredPlayerIds : List JSVal)
    (today : String) (st : LoopState) (playerStats : PlayerStats) :
    ∃ new, Adds thresholds rosteredPlayerIds today st
      (alertStep thresholds rosteredPlayerIds today st playerStats) new := by
  by_cases hmeets : meetsThresholds thresholds playerStats = true
  · by_cases hfree : isRostered rosteredPlayerIds playerStats.id = false
    · by_cases hkey : alertKey playerStats.id today ∈ st.alertedPlayers
      · rw [alertStep_skip _ _ _ _ _ (Or.inr (Or.inr hkey))]
        exact ⟨[], Adds.refl _ _ _ _⟩
      · rw [alertStep_push _ _ _ _ _ hmeets hfree hkey]
        refine ⟨[{ playerStats with isAvailable := some true }], ?_, ?_, ?_, ?_, ?_⟩
        · rfl
        · rfl
        · simpa using hkey
        · simp
        · simpa [meetsThresholds, hfree] using hmeets
    · rw [alertStep_skip _ _ _ _ _ (Or.inr (Or.inl (by simpa using hfree)))]
      exact ⟨[], Adds.refl _ _ _ _⟩
  · rw [alertStep_skip _ _ _ _ _ (Or.inl (by simpa using hmeets))]
    exact ⟨[], Adds.refl _ _ _ _⟩

theorem forEachAthlete_adds (thresholds : Thresholds) (rosteredPlayerIds : List JSVal)
    (today : String) (gameId gameName teamName : JSVal) (athletes : List Athlete) :
    ∀ st : LoopState, ∃ new, Adds thresholds rosteredPlayerIds today st
      (forEachAthlete thresholds rosteredPlayerIds today gameId gameName teamName
        athletes st).1 new := by
  induction athletes with
  | nil => intro st; exact ⟨[], Adds.refl _ _ _ _⟩
  | cons athlete rest ih =>
    intro st
    unfold forEachAthlete
    cases hex : extractPlayerStats gameId gameName teamName athlete with
    | none => exact ⟨[], Adds.refl _ _ _ _⟩
    | some playerStats =>
      obtain ⟨new, hnew⟩ := alertStep_adds thresholds rosteredPlayerIds today st playerStats
      obtain ⟨new', hnew'⟩ := ih (alertStep thresholds rosteredPlayerIds today st playerStats)
      exact ⟨new ++ new', hnew.trans hnew'⟩

theorem forEachTeam_adds (thresholds : Thresholds) (rosteredPlayerIds : List JSVal)
    (today : String) (gameId gameName : JSVal) (teams : List Team) :
    ∀ st : LoopState, ∃ new, Adds thresholds rosteredPlayerIds today st
      (forEachTeam thresholds rosteredPlayerIds today gameId gameName teams st).1 new := by
  induction teams with
  | nil => intro st; exact ⟨[], Adds.refl _ _ _ _⟩
  | cons team rest ih =>
    intro st
    unfold forEachTeam
    cases hteam : team.athletes with
    | none => exact ih st
    | some athletes =>
      obtain ⟨new, hnew⟩ := forEachAthlete_adds thresholds rosteredPlayerIds today gameId
        gameName team.displayName athletes st
      by_cases hflag : (forEachAthlete thresholds rosteredPlayerIds today gameId gameName
          team.displayName athletes st).2 = true
      · obtain ⟨new', hnew'⟩ := ih (forEachAthlete thresholds rosteredPlayerIds today gameId
          gameName team.displayName athletes st).1
        simp only [hflag, if_true]
        exact ⟨new ++ new', hnew.trans hnew'⟩
      · simp only [hflag, if_false]
        exact ⟨new, hnew⟩

/-- What one `processGame` call does to the set and what it returns: the keys
of some observations `new`, all absent before, are appended to the set, and
the returned array is `new` or, after an exception, empty. -/
theorem processGame_adds (thresholds : Thresholds) (rosteredPlayerIds : List JSVal)
    (today : String) (gameId gameName : JSVal) (response : Option GameData)
    (alertedPlayers : List String) :
    ∃ new : List PlayerStats,
      (processGame thresholds rosteredPlayerIds today gameId gameName response
        alertedPlayers).alertedPlayers =
        alertedPlayers ++ new.map (fun p => alertKey p.id today) ∧
      ((processGame thresholds rosteredPlayerIds today gameId gameName response
        alertedPlayers).alerts = new ∨
       (processGame thresholds rosteredPlayerIds today gameId gameName response
        alertedPlayers).alerts = []) ∧
      (∀ p ∈ new, alertKey p.id today ∉ alertedPlayers) ∧
      (new.map (fun p => p.id.toStr)).Nodup ∧
      (∀ p ∈ new, isRostered rosteredPlayerIds p.id = false ∧
        p.isAvailable = some true ∧ meetsThresholds thresholds p = true) := by
  cases response with
  | none => exact ⟨[], by simp [processGame]⟩
  | some gameData =>
    cases hplayers : gameData.players with
    | none => exact ⟨[], by simp [processGame, hplayers]⟩
    | some teams =>
      obtain ⟨new, hnew⟩ := forEachTeam_adds thresholds rosteredPlayerIds today gameId gameName
        teams { alertedPlayers := alertedPlayers, alertPlayers := [] }
      refine ⟨new, ?_, ?_, hnew.fresh, hnew.nodup, hnew.accepted⟩
      · simp only [processGame, hplayers]
        split <;> exact hnew.keys_eq
      · simp only [processGame, hplayers]
        split
        · left; simpa using hnew.alerts_eq
        · right; rfl

/-! ## C4: at most one alert per player and day -/

theorem processGames_fresh_nodup (thresholds : Thresholds) (rosteredPlayerIds : List JSVal)
    (today : String) (games : List Game) :
    ∀ alertedPlayers : List String,
      (∀ p ∈ (processGames thresholds rosteredPlayerIds today games alertedPlayers).flatten,
        alertKey p.id today ∉ alertedPlayers) ∧
      ((processGames thresholds rosteredPlayerIds today games alertedPlayers).flatten.map
        (fun p => p.id.toStr)).Nodup := by
  induction games with
  | nil => intro alertedPlayers; simp [processGames]
  | cons game rest ih =>
    intro alertedPlayers
    obtain ⟨new, hkeys, halerts, hfresh, hnodup, -⟩ := processGame_adds thresholds
      rosteredPlayerIds today game.id game.shortName game.response alertedPlayers
    obtain ⟨ihfresh, ihnodup⟩ := ih (processGame thresholds rosteredPlayerIds today game.id
      game.shortName game.response alertedPlayers).alertedPlayers
    have hsub : ∀ p ∈ (processGame thresholds rosteredPlayerIds today game.id game.shortName
        game.response alertedPlayers).alerts, p ∈ new := by
      intro p hp
      rcases halerts with h | h
      · rwa [h] at hp
      · rw [h] at hp; exact absurd hp (List.not_mem_nil _)
    have hfirst : ((processGame thresholds rosteredPlayerIds today game.id game.shortName
        game.response alertedPlayers).alerts.map (fun p => p.id.toStr)).Nodup := by
      rcases halerts with h | h
      · rw [h]; exact hnodup
      · rw [h]; exact List.nodup_nil
    simp only [processGames, List.flatten_cons, List.map_append]
    refine ⟨?_, List.Nodup.append hfirst ihnodup ?_⟩
    · intro p hp
      rcases List.mem_append.1 hp with hp | hp
      · exact hfresh p (hsub p hp)
      · intro hk
        refine ihfresh p hp ?_
        rw [hkeys]
        exact List.mem_append_left _ hk
    · intro s hs hs'
      obtain ⟨p, hp, rfl⟩ := List.mem_map.1 hs
      obtain ⟨q, hq, hqp⟩ := List.mem_map.1 hs'
      refine ihfresh q hq ?_
      rw [hkeys, alertKey_congr q.id p.id today hqp]
      exact List.mem_append_right _ (List.mem_map.2 ⟨p, hsub p hp, rfl⟩)

/-- C4. For every initial set `alertedPlayers` and every sequence of
`processGame` calls that see the same date string, no identifier, compared
in string form, occurs twice in the concatenation of the returned batches. -/
theorem processGames_ids_nodup (thresholds : Thresholds) (rosteredPlayerIds : List JSVal)
    (today : String) (games : List Game) (alertedPlayers : List String) :
    ((processGames thresholds rosteredPlayerIds today games alertedPlayers).flatten.map
      (fun p => p.id.toStr)).Nodup :=
  (processGames_fresh_nodup thresholds rosteredPlayerIds today games alertedPlayers).2

/-! ## C6: rostered players are excluded -/

/-- C6. An athlete whose identifier has the string form of some roster
element is in no batch returned by `processGame`, whatever the thresholds and
the box score, and the call registers no alerted key for that identifier. -/
theorem processGame_excludes_rostered (thresholds : Thresholds)
    (rosteredPlayerIds : List JSVal) (today : String) (gameId gameName : JSVal)
    (response : Option GameData) (alertedPlayers : List String) (playerId : JSVal)
    (hroster : ∃ id ∈ rosteredPlayerIds, id.toStr = playerId.toStr) :
    (∀ p ∈ (processGame thresholds rosteredPlayerIds today gameId gameName response
      alertedPlayers).alerts, p.id.toStr ≠ playerId.toStr) ∧
    (alertKey playerId today ∈ (processGame thresholds rosteredPlayerIds today gameId gameName
      response alertedPlayers).alertedPlayers → alertKey playerId today ∈ alertedPlayers) := by
  have hr : isRostered rosteredPlayerIds playerId = true := (isRostered_iff _ _).2 hroster
  obtain ⟨new, hkeys, halerts, -, -, hacc⟩ := processGame_adds thresholds rosteredPlayerIds
    today gameId gameName response alertedPlayers
  have hnew : ∀ p ∈ new, p.id.toStr ≠ playerId.toStr := by
    intro p hp heq
    have := (hacc p hp).1
    rw [isRostered_congr rosteredPlayerIds p.id playerId heq, hr] at this
    exact Bool.noConfusion this
  constructor
  · intro p hp
    rcases halerts with h | h
    · exact hnew p (h ▸ hp)
    · rw [h] at hp; exact absurd hp (List.not_mem_nil _)
  · rw [hkeys]
    intro hk
    rcases List.mem_append.1 hk with hk | hk
    · exact hk
    · obtain ⟨p, hp, hpk⟩ := List.mem_map.1 hk
      exact absurd (alertKey_id_injective _ _ _ hpk) (hnew p hp)

theorem processGame_excludes_rostered_witness :
    (∃ id ∈ [JSVal.str "123"], id.toStr = (JSVal.num 123).toStr) ∧
    (∀ p ∈ (processGame sampleThresholds [JSVal.str "123"] "Fri Nov 06 2026" (JSVal.str "401")
      (JSVal.str "AWY @ HOM") (some { players := some [sampleTeam] }) []).alerts,
      p.id.toStr ≠ (JSVal.num 123).toStr) ∧
    (alertKey (JSVal.num 123) "Fri Nov 06 2026" ∈
      (processGame sampleThresholds [JSVal.str "123"] "Fri Nov 06 2026" (JSVal.str "401")
        (JSVal.str "AWY @ HOM") (some { players := some [sampleTeam] }) []).alertedPlayers →
      alertKey (JSVal.num 123) "Fri Nov 06 2026" ∈ ([] : List String)) :=
  ⟨⟨JSVal.str "123", by simp, by decide⟩,
    processGame_excludes_rostered sampleThresholds [JSVal.str "123"] "Fri Nov 06 2026"
      (JSVal.str "401") (JSVal.str "AWY @ HOM") (some { players := some [sampleTeam] }) []
      (JSVal.num 123) ⟨JSVal.str "123", by simp, by decide⟩⟩

/-! ## C7: eligible players are included -/

theorem extractPlayerStats_id (gameId gameName teamName : JSVal) (athlete : Athlete)
    (playerStats : PlayerStats)
    (h : extractPlayerStats gameId gameName teamName athlete = some playerStats) :
    playerStats.id = athlete.id := by
  unfold extractPlayerStats at h
  split at h
  · exact Option.noConfusion h
  · split at h
    · exact Option.noConfusion h
    · rw [← Option.some.inj h]

theorem forEachAthlete_append (thresholds : Thresholds) (rosteredPlayerIds : List JSVal)
    (today : String) (gameId gameName teamName : JSVal) (xs ys : List Athlete) :
    ∀ st : LoopState,
      forEachAthlete thresholds rosteredPlayerIds today gameId gameName teamName (xs ++ ys) st =
        if (forEachAthlete thresholds rosteredPlayerIds today gameId gameName teamName xs st).2
        then forEachAthlete thresholds rosteredPlayerIds today gameId gameName teamName ys
          (forEachAthlete thresholds rosteredPlayerIds today gameId gameName teamName xs st).1
        else
          ((forEachAthlete thresholds rosteredPlayerIds today gameId gameName teamName xs st).1,
            false) := by
  induction xs with
  | nil => intro st; simp [forEachAthlete]
  | cons x xs ih =>
    intro st
    cases hex : extractPlayerStats gameId gameName teamName x with
    | none => simp [forEachAthlete, hex]
    | some playerStats => simp only [List.cons_append, forEachAthlete, hex]; exact ih _

theorem forEachTeam_append (thresholds : Thresholds) (rosteredPlayerIds : List JSVal)
    (today : String) (gameId gameName : JSVal) (xs ys : List Team) :
    ∀ st : LoopState,
      forEachTeam thresholds rosteredPlayerIds today gameId gameName (xs ++ ys) st =
        if (forEachTeam thresholds rosteredPlayerIds today gameId gameName xs st).2
        then forEachTeam thresholds rosteredPlayerIds today gameId gameName ys
          (forEachTeam thresholds rosteredPlayerIds today gameId gameName xs st).1
        else ((forEachTeam thresholds rosteredPlayerIds today gameId gameName xs st).1, false) := by
  induction xs with
  | nil => intro st; simp [forEachTeam]
  | cons x xs ih =>
    intro st
    cases hx : x.athletes with
    | none => simp only [List.cons_append, forEachTeam, hx]; exact ih _
    | some athletes =>
      by_cases hflag : (forEachAthlete thresholds rosteredPlayerIds today gameId gameName
          x.displayName athletes st).2 = true
      · simp only [List.cons_append, forEachTeam, hx, hflag, if_true]; exact ih _
      · simp [forEachTeam, hx, hflag]

/-- Where a box score is processed without exception, the final state is
reached through the state in which a given athlete entry is evaluated. -/
theorem forEachTeam_through (thresholds : Thresholds) (rosteredPlayerIds : List JSVal)
    (today : String) (gameId gameName : JSVal) (teamsBefore : List Team) (team : Team)
    (teamsAfter : List Team) (before : List Athlete) (athlete : Athlete)
    (after : List Athlete) (st : LoopState) (playerStats : PlayerStats)
    (hteam : team.athletes = some (before ++ athlete :: after))
    (hextract : extractPlayerStats gameId gameName team.displayName athlete = some playerStats)
    (hprocessed : (forEachTeam thresholds rosteredPlayerIds today gameId gameName
      (teamsBefore ++ team :: teamsAfter) st).2 = true) :
    (forEachTeam thresholds rosteredPlayerIds today gameId gameName
      (teamsBefore ++ team :: teamsAfter) st).1 =
      (forEachTeam thresholds rosteredPlayerIds today gameId gameName teamsAfter
        (forEachAthlete thresholds rosteredPlayerIds today gameId gameName team.displayName after
          (alertStep thresholds rosteredPlayerIds today
            (forEachAthlete thresholds rosteredPlayerIds today gameId gameName team.displayName
              before
              (forEachTeam thresholds rosteredPlayerIds today gameId gameName teamsBefore
                st).1).1
            playerStats)).1).1 := by
  rw [forEachTeam_append] at hprocessed ⊢
  by_cases h1 : (forEachTeam thresholds rosteredPlayerIds today gameId gameName teamsBefore
      st).2 = true
  · simp only [h1, if_true] at hprocessed ⊢
    simp only [forEachTeam, hteam] at hprocessed ⊢
    rw [forEachAthlete_append] at hprocessed ⊢
    by_cases h2 : (forEachAthlete thresholds rosteredPlayerIds today gameId gameName
        team.displayName before
        (forEachTeam thresholds rosteredPlayerIds today gameId gameName teamsBefore st).1).2 =
        true
    · simp only [h2, if_true, forEachAthlete, hextract] at hprocessed ⊢
      by_cases h3 : (forEachAthlete thresholds rosteredPlayerIds today gameId gameName
          team.displayName after
          (alertStep thresholds rosteredPlayerIds today
            (forEachAthlete thresholds rosteredPlayerIds today gameId gameName team.displayName
              before
              (forEachTeam thresholds rosteredPlayerIds today gameId gameName teamsBefore
                st).1).1
            playerStats)).2 = true
      · simp only [h3, if_true]
      · simp [h3] at hprocessed
    · simp [h2] at hprocessed
  · simp [h1] at hprocessed

/-- C7. In a box score processed without exception, an athlete entry whose
extracted observation meets the thresholds, whose identifier is not rostered
and whose key is not in `alertedPlayers` when the entry is evaluated is in the
returned batch exactly once, flagged available and with the extracted
statistics: it is the one batch entry with that identifier. -/
theorem processGame_includes_eligible (thresholds : Thresholds)
    (rosteredPlayerIds : List JSVal) (today : String) (gameId gameName : JSVal)
    (teamsBefore : List Team) (team : Team) (teamsAfter : List Team)
    (before : List Athlete) (athlete : Athlete) (after : List Athlete)
    (alertedPlayers : List String) (playerStats : PlayerStats)
    (hteam : team.athletes = some (before ++ athlete :: after))
    (hprocessed : (forEachTeam thresholds rosteredPlayerIds today gameId gameName
      (teamsBefore ++ team :: teamsAfter)
      { alertedPlayers := alertedPlayers, alertPlayers := [] }).2 = true)
    (hextract : extractPlayerStats gameId gameName team.displayName athlete = some playerStats)
    (hmeets : meetsThresholds thresholds playerStats = true)
    (hfree : ¬ ∃ id ∈ rosteredPlayerIds, id.toStr = athlete.id.toStr)
    (hkey : alertKey athlete.id today ∉
      (forEachAthlete thresholds rosteredPlayerIds today gameId gameName team.displayName before
        (forEachTeam thresholds rosteredPlayerIds today gameId gameName teamsBefore
          { alertedPlayers := alertedPlayers, alertPlayers := [] }).1).1.alertedPlayers) :
    (processGame thresholds rosteredPlayerIds today gameId gameName
      (some { players := some (teamsBefore ++ team :: teamsAfter) }) alertedPlayers).alerts.count
      { playerStats with isAvailable := some true } = 1 ∧
    (processGame thresholds rosteredPlayerIds today gameId gameName
      (some { players := some (teamsBefore ++ team :: teamsAfter) }) alertedPlayers).alerts.filter
      (fun p => p.id.toStr == athlete.id.toStr) =
      [{ playerStats with isAvailable := some true }] := by
  have hid : playerStats.id = athlete.id := extractPlayerStats_id _ _ _ _ _ hextract
  have hfree' : isRostered rosteredPlayerIds playerStats.id = false := by
    rw [hid, ← Bool.not_eq_true, isRostered_iff]; exact hfree
  obtain ⟨n0, h0⟩ := forEachTeam_adds thresholds rosteredPlayerIds today gameId gameName
    teamsBefore { alertedPlayers := alertedPlayers, alertPlayers := [] }
  obtain ⟨n1, h1⟩ := forEachAthlete_adds thresholds rosteredPlayerIds today gameId gameName
    team.displayName before
    (forEachTeam thresholds rosteredPlayerIds today gameId gameName teamsBefore
      { alertedPlayers := alertedPlayers, alertPlayers := [] }).1
  have h01 := h0.trans h1
  have hpush := alertStep_push thresholds rosteredPlayerIds today _ playerStats hmeets hfree'
    (by rw [hid]; exact hkey)
  obtain ⟨n2, h2⟩ := forEachAthlete_adds thresholds rosteredPlayerIds today gameId gameName
    team.displayName after
    (alertStep thresholds rosteredPlayerIds today
      (forEachAthlete thresholds rosteredPlayerIds today gameId gameName team.displayName before
        (forEachTeam thresholds rosteredPlayerIds today gameId gameName teamsBefore
          { alertedPlayers := alertedPlayers, alertPlayers := [] }).1).1 playerStats)
  obtain ⟨n3, h3⟩ := forEachTeam_adds thresholds rosteredPlayerIds today gameId gameName
    teamsAfter
    (forEachAthlete thresholds rosteredPlayerIds today gameId gameName team.displayName after
      (alertStep thresholds rosteredPlayerIds today
        (forEachAthlete thresholds rosteredPlayerIds today gameId gameName team.displayName
          before
          (forEachTeam thresholds rosteredPlayerIds today gameId gameName teamsBefore
            { alertedPlayers := alertedPlayers, alertPlayers := [] }).1).1 playerStats)).1
  have h23 := h2.trans h3
  have hthrough := forEachTeam_through thresholds rosteredPlayerIds today gameId gameName
    teamsBefore team teamsAfter before athlete after
    { alertedPlayers := alertedPlayers, alertPlayers := [] } playerStats hteam hextract hprocessed
  have halerts : (processGame thresholds rosteredPlayerIds today gameId gameName
      (some { players := some (teamsBefore ++ team :: teamsAfter) }) alertedPlayers).alerts =
      (n0 ++ n1) ++ { playerStats with isAvailable := some true } :: (n2 ++ n3) := by
    simp only [processGame, hprocessed, if_true]
    rw [hthrough, h23.alerts_eq, hpush]
    simp only [h01.alerts_eq, List.nil_append, List.append_assoc, List.singleton_append]
  have hbefore : ∀ p ∈ n0 ++ n1, p.id.toStr ≠ athlete.id.toStr := by
    intro p hp heq
    apply hkey
    rw [h01.keys_eq, ← alertKey_congr p.id athlete.id today heq]
    exact List.mem_append_right _ (List.mem_map.2 ⟨p, hp, rfl⟩)
  have hafter : ∀ p ∈ n2 ++ n3, p.id.toStr ≠ athlete.id.toStr := by
    intro p hp heq
    apply h23.fresh p hp
    rw [hpush, alertKey_congr p.id athlete.id today heq, hid]
    simp
  have hfilter : (processGame thresholds rosteredPlayerIds today gameId gameName
      (some { players := some (teamsBefore ++ team :: teamsAfter) }) alertedPlayers).alerts.filter
      (fun p => p.id.toStr == athlete.id.toStr) =
      [{ playerStats with isAvailable := some true }] := by
    rw [halerts, List.filter_append, List.filter_cons]
    have e1 : (n0 ++ n1).filter (fun p => p.id.toStr == athlete.id.toStr) = [] := by
      rw [List.filter_eq_nil_iff]
      intro p hp
      simpa using hbefore p hp
    have e2 : (n2 ++ n3).filter (fun p => p.id.toStr == athlete.id.toStr) = [] := by
      rw [List.filter_eq_nil_iff]
      intro p hp
      simpa using hafter p hp
    rw [e1, e2]
    simp [hid]
  refine ⟨?_, hfilter⟩
  have hcount := congrArg (List.count { playerStats with isAvailable := some true }) hfilter
  rw [List.count_filter (by simp [hid])] at hcount
  simpa using hcount

theorem processGame_includes_eligible_witness :
    sampleTeam.athletes = some ([] ++ sampleAthlete :: []) ∧
    (forEachTeam sampleThresholds [] "Fri Nov 06 2026" (JSVal.str "401") (JSVal.str "AWY @ HOM")
      ([] ++ sampleTeam :: []) { alertedPlayers := [], alertPlayers := [] }).2 = true ∧
    extractPlayerStats (JSVal.str "401") (JSVal.str "AWY @ HOM") sampleTeam.displayName
      sampleAthlete = some samplePlayer ∧
    meetsThresholds sampleThresholds samplePlayer = true ∧
    (¬ ∃ id ∈ ([] : List JSVal), id.toStr = sampleAthlete.id.toStr) ∧
    processGame sampleThresholds [] "Fri Nov 06 2026" (JSVal.str "401") (JSVal.str "AWY @ HOM")
      (some { players := some [sampleTeam] }) [] =
      { alertedPlayers := ["123-Fri Nov 06 2026"]
        alerts := [{ samplePlayer with isAvailable := some true }] } ∧
    ((processGame sampleThresholds [] "Fri Nov 06 2026" (JSVal.str "401")
      (JSVal.str "AWY @ HOM") (some { players := some ([] ++ sampleTeam :: []) }) []).alerts.count
      { samplePlayer with isAvailable := some true } = 1 ∧
    (processGame sampleThresholds [] "Fri Nov 06 2026" (JSVal.str "401")
      (JSVal.str "AWY @ HOM") (some { players := some ([] ++ sampleTeam :: []) }) []).alerts.filter
      (fun p => p.id.toStr == sampleAthlete.id.toStr) =
      [{ samplePlayer with isAvailable := some true }]) :=
  ⟨rfl, by decide, by decide, by decide, by simp, by decide,
    processGame_includes_eligible sampleThresholds [] "Fri Nov 06 2026" (JSVal.str "401")
      (JSVal.str "AWY @ HOM") [] sampleTeam [] [] sampleAthlete [] [] samplePlayer rfl
      (by decide) (by decide) (by decide) (by simp) (by simp [forEachTeam, forEachAthlete])⟩

/-! ## C8: the game-time window -/

theorem jsNumber_twoDigits (n : Nat) (h : n < 100) : jsNumber (twoDigits n) = JSNum.ofInt n := by
  interval_cases n <;> decide

theorem twoDigits_eq (n : Nat) (h : n < 100) :
    ∃ a b : Char, twoDigits n = [a, b] ∧ a ≠ ':' ∧ b ≠ ':' := by
  refine ⟨Char.ofNat (48 + n / 10), Char.ofNat (48 + n % 10), rfl, ?_, ?_⟩
  · have h10 : n / 10 < 10 := by omega
    generalize n / 10 = d at h10
    interval_cases d <;> decide
  · have h10 : n % 10 < 10 := by omega
    generalize n % 10 = d at h10
    interval_cases d <;> decide

theorem splitAt_hhmm (hour minute : Nat) (hh : hour < 100) (hm : minute < 100) :
    splitAt ':' (hhmm hour minute).toList = [twoDigits hour, twoDigits minute] := by
  obtain ⟨a, b, hab, ha, hb⟩ := twoDigits_eq hour hh
  obtain ⟨c, d, hcd, hc, hd⟩ := twoDigits_eq minute hm
  unfold hhmm
  rw [hab, hcd]
  simp [splitAt, ha, hb, hc, hd]

theorem minutesOfDay_hhmm (hour minute : Nat) (hh : hour < 100) (hm : minute < 100) :
    minutesOfDay (hhmm hour minute) = JSNum.fin (((hour * 60 + minute : Nat) : ℚ)) := by
  unfold minutesOfDay
  rw [splitAt_hhmm hour minute hh hm]
  simp [jsNumber_twoDigits hour hh, jsNumber_twoDigits minute hm, JSNum.ofInt, JSNum.mul,
    JSNum.add]

theorem monitorGames_outside_window (config : Config) (rosteredPlayerIds : List JSVal)
    (hours minutes : Nat) (today : String) (games : List Game) (alertedPlayers : List String)
    (h : isWithinGameTime config.monitoring hours minutes = false) :
    monitorGames config rosteredPlayerIds hours minutes today games alertedPlayers =
      { alertedPlayers := alertedPlayers, effects := [] } := by
  simp [monitorGames, h]

/-- C8. With the flag `onlyDuringGameTimes` off `isWithinGameTime` is true
whatever the window; with the flag on and the window written as `"HH:MM"` it
is true exactly when `startHour*60+startMin <= hours*60+minutes <=
endHour*60+endMin`.  With start "18:00", end "23:59" and current time 12:00
it is false, and whenever it is false `monitorGames` ends without any call
to a collaborator and leaves `alertedPlayers` as it was. -/
theorem isWithinGameTime_iff (hours minutes startHour startMin endHour endMin : Nat)
    (hsh : startHour < 100) (hsm : startMin < 100) (heh : endHour < 100) (hem : endMin < 100) :
    (∀ gameTimeStart gameTimeEnd : String,
      isWithinGameTime
        { onlyDuringGameTimes := false, gameTimeStart := gameTimeStart,
          gameTimeEnd := gameTimeEnd } hours minutes = true) ∧
    (isWithinGameTime
        { onlyDuringGameTimes := true, gameTimeStart := hhmm startHour startMin,
          gameTimeEnd := hhmm endHour endMin } hours minutes = true ↔
      startHour * 60 + startMin ≤ hours * 60 + minutes ∧
        hours * 60 + minutes ≤ endHour * 60 + endMin) ∧
    isWithinGameTime
      { onlyDuringGameTimes := true, gameTimeStart := "18:00", gameTimeEnd := "23:59" }
      12 0 = false ∧
    (∀ (config : Config) (rosteredPlayerIds : List JSVal) (today : String) (games : List Game)
      (alertedPlayers : List String),
      isWithinGameTime config.monitoring hours minutes = false →
      monitorGames config rosteredPlayerIds hours minutes today games alertedPlayers =
        { alertedPlayers := alertedPlayers, effects := [] }) := by
  have key : ∀ h m sh sm eh em : Nat, sh < 100 → sm < 100 → eh < 100 → em < 100 →
      (isWithinGameTime
        { onlyDuringGameTimes := true, gameTimeStart := hhmm sh sm,
          gameTimeEnd := hhmm eh em } h m = true ↔
        sh * 60 + sm ≤ h * 60 + m ∧ h * 60 + m ≤ eh * 60 + em) := by
    intro h m sh sm eh em h1 h2 h3 h4
    have hcur : JSNum.add (JSNum.mul (JSNum.ofInt h) (JSNum.fin 60)) (JSNum.ofInt m) =
        JSNum.fin (((h * 60 + m : Nat) : ℚ)) := by
      simp [JSNum.ofInt, JSNum.mul, JSNum.add]
    simp only [isWithinGameTime, Bool.not_true, Bool.false_eq_true, if_false, hcur,
      minutesOfDay_hhmm sh sm h1 h2, minutesOfDay_hhmm eh em h3 h4, JSNum.ge, JSNum.le,
      Bool.and_eq_true, decide_eq_true_eq, Nat.cast_le]
  refine ⟨fun _ _ => by simp [isWithinGameTime], key _ _ _ _ _ _ hsh hsm heh hem, ?_,
    fun config rosteredPlayerIds today games alertedPlayers h =>
      monitorGames_outside_window config rosteredPlayerIds hours minutes today games
        alertedPlayers h⟩
  have h18 : hhmm 18 0 = "18:00" := by decide
  have h23 : hhmm 23 59 = "23:59" := by decide
  have := key 12 0 18 0 23 59 (by omega) (by omega) (by omega) (by omega)
  rw [h18, h23] at this
  rw [← Bool.not_eq_true, this]
  omega

theorem isWithinGameTime_iff_witness :
    18 < 100 ∧ 0 < 100 ∧ 23 < 100 ∧ 59 < 100 ∧
    (isWithinGameTime
        { onlyDuringGameTimes := true, gameTimeStart := hhmm 18 0, gameTimeEnd := hhmm 23 59 }
        19 30 = true ↔
      18 * 60 + 0 ≤ 19 * 60 + 30 ∧ 19 * 60 + 30 ≤ 23 * 60 + 59) :=
  ⟨by decide, by decide, by decide, by decide,
    (isWithinGameTime_iff 19 30 18 0 23 59 (by decide) (by decide) (by decide)
      (by decide)).2.1⟩

/-! ## C9: extraction of malformed statistics -/

theorem JSNum.orZero_ne_nan (x : JSNum) : x.orZero ≠ JSNum.nan := by
  cases x <;> simp [JSNum.orZero, JSNum.truthy]
  split <;> simp

theorem JSNum.orZero_nan : JSNum.nan.orZero = JSNum.fin 0 := rfl

theorem statAt_cases (stats : List JSVal) (i : Nat) :
    statAt stats i = JSVal.undefined ∨ statAt stats i ∈ stats := by
  unfold statAt
  by_cases h : i < stats.length
  · right
    rw [List.getD_eq_getElem _ _ h]
    exact List.getElem_mem h
  · left
    exact List.getD_eq_default _ _ (by omega)

/-- On a stat array whose entries are strings or missing, the extraction does
not throw, and each of the six statistics read with `parseInt(...) || 0` is a
number, 0 when the entry does not parse. -/
theorem extractPlayerStats_of_strings (gameId gameName teamName : JSVal) (athlete : Athlete)
    (stats : List JSVal) (hstats : athlete.stats = some stats)
    (hshape : ∀ v ∈ stats, v = JSVal.undefined ∨ ∃ s, v = JSVal.str s) :
    ∃ playerStats, extractPlayerStats gameId gameName teamName athlete = some playerStats ∧
      playerStats.points = (parseIntOf (statAt stats 13)).orZero ∧
      playerStats.rebounds = (parseIntOf (statAt stats 6)).orZero ∧
      playerStats.assists = (parseIntOf (statAt stats 7)).orZero ∧
      playerStats.steals = (parseIntOf (statAt stats 8)).orZero ∧
      playerStats.blocks = (parseIntOf (statAt stats 9)).orZero ∧
      playerStats.turnovers = (parseIntOf (statAt stats 10)).orZero := by
  have h2 : ∃ threes, threePointersOf (statAt stats 2) = some threes := by
    rcases statAt_cases stats 2 with h | h
    · rw [h]; exact ⟨JSNum.fin 0, rfl⟩
    · rcases hshape _ h with h' | ⟨s, h'⟩
      · rw [h']; exact ⟨JSNum.fin 0, rfl⟩
      · rw [h']
        by_cases hs : s = ""
        · exact ⟨JSNum.fin 0, by simp [threePointersOf, JSVal.truthy, hs]⟩
        · exact ⟨parseInt (s.toList.takeWhile (fun c => c != '-')),
            by simp [threePointersOf, JSVal.truthy, hs]⟩
  obtain ⟨threes, hthrees⟩ := h2
  refine ⟨{ id := athlete.id, name := athlete.displayName, team := teamName, game := gameName,
            gameId := gameId,
            minutes := if (statAt stats 0).truthy then statAt stats 0 else JSVal.str "0",
            points := (parseIntOf (statAt stats 13)).orZero,
            rebounds := (parseIntOf (statAt stats 6)).orZero,
            assists := (parseIntOf (statAt stats 7)).orZero,
            threePointers := threes,
            steals := (parseIntOf (statAt stats 8)).orZero,
            blocks := (parseIntOf (statAt stats 9)).orZero,
            turnovers := (parseIntOf (statAt stats 10)).orZero,
            isAvailable := none }, ?_, rfl, rfl, rfl, rfl, rfl, rfl⟩
  simp [extractPlayerStats, hstats, hthrees]

/-- C9, at the failing input. A non-numeric three-pointers string is not
coerced to 0: line 222 has no `|| 0`, so `threePointers` is `NaN`, and the
player then fails `meetsThresholds` even with a three-pointers minimum of 0.
The six other statistics do coerce: a non-numeric rebounds string and a
missing assists entry both give 0. -/
theorem extractPlayerStats_malformed_threePointers :
    (extractPlayerStats (JSVal.str "401") (JSVal.str "AWY @ HOM") (JSVal.str "Home")
      { id := JSVal.num 123, displayName := JSVal.str "A. Player",
        stats := some malformedThreesStats }) =
      some { samplePlayer with threePointers := JSNum.nan } ∧
    meetsThresholds sampleThresholds { samplePlayer with threePointers := JSNum.nan } = false ∧
    meetsThresholds sampleThresholds samplePlayer = true ∧
    (extractPlayerStats (JSVal.str "401") (JSVal.str "AWY @ HOM") (JSVal.str "Home")
      { id := JSVal.num 123, displayName := JSVal.str "A. Player",
        stats := some malformedReboundsStats }) = some samplePlayer := by
  refine ⟨?_, ?_, ?_, ?_⟩ <;> decide

/-! ## C10: one notification per cycle -/

theorem notifierCalls_append (xs ys : List Effect) :
    notifierCalls (xs ++ ys) = notifierCalls xs ++ notifierCalls ys := by
  induction xs with
  | nil => rfl
  | cons x xs ih => cases x <;> simp [notifierCalls, ih]

theorem notifierCalls_fetchSummary (games : List Game) :
    notifierCalls (games.map (fun g => Effect.fetchSummary g.id)) = [] := by
  induction games with
  | nil => rfl
  | cons g rest ih => simpa [notifierCalls] using ih

theorem notifierCalls_sendAlertEmail (players : List PlayerStats) :
    notifierCalls (sendAlertEmail players) = [] := by
  unfold sendAlertEmail
  split <;> rfl

/-- The `for` loop appends to `allAlerts` the batches of the successive
`processGame` calls and makes one summary request per game. -/
theorem gamesLoop_eq (config : Config) (rosteredPlayerIds : List JSVal) (today : String)
    (games : List Game) :
    ∀ (alertedPlayers : List String) (allAlerts : List PlayerStats) (effects : List Effect),
      (gamesLoop config rosteredPlayerIds today games alertedPlayers allAlerts effects).2 =
        (allAlerts ++
          (processGames config.thresholds rosteredPlayerIds today games alertedPlayers).flatten,
         effects ++ games.map (fun g => Effect.fetchSummary g.id)) := by
  induction games with
  | nil => intro alertedPlayers allAlerts effects; simp [gamesLoop, processGames]
  | cons game rest ih =>
    intro alertedPlayers allAlerts effects
    simp only [gamesLoop, processGames, List.flatten_cons, List.map_cons]
    rw [ih]
    simp

/-- C10. In a cycle that passes the time gate and has a non-empty schedule,
`sendAlertEmail` is invoked exactly once, with the concatenation of the
per-game batches in schedule order, when that concatenation is non-empty, and
not at all when it is empty; `sendAlertEmail` sends nothing for an empty list. -/
theorem monitorGames_notifies_once (config : Config) (rosteredPlayerIds : List JSVal)
    (hours minutes : Nat) (today : String) (games : List Game) (alertedPlayers : List String)
    (hgate : isWithinGameTime config.monitoring hours minutes = true) (hgames : games ≠ []) :
    notifierCalls (monitorGames config rosteredPlayerIds hours minutes today games
      alertedPlayers).effects =
      (if (processGames config.thresholds rosteredPlayerIds today games
          alertedPlayers).flatten = [] then []
        else [(processGames config.thresholds rosteredPlayerIds today games
          alertedPlayers).flatten]) ∧
    sendAlertEmail [] = [] := by
  refine ⟨?_, rfl⟩
  have hlen : (games.length == 0) = false := by
    cases games with
    | nil => exact absurd rfl hgames
    | cons g rest => rfl
  have hloop := gamesLoop_eq config rosteredPlayerIds today games alertedPlayers []
    [Effect.fetchTodayGames]
  simp only [monitorGames, hgate, hlen, Bool.not_true, Bool.false_eq_true, if_false]
  rw [Prod.ext_iff] at hloop
  simp only [List.nil_append] at hloop
  rw [hloop.1, hloop.2]
  by_cases hempty : (processGames config.thresholds rosteredPlayerIds today games
      alertedPlayers).flatten = []
  · simp [hempty, notifierCalls_append, notifierCalls_fetchSummary, notifierCalls]
  · have hpos : (processGames config.thresholds rosteredPlayerIds today games
        alertedPlayers).flatten.length > 0 := List.length_pos.2 hempty
    rw [if_pos hpos, if_neg hempty]
    simp [notifierCalls_append, notifierCalls_fetchSummary, notifierCalls,
      notifierCalls_sendAlertEmail]

theorem monitorGames_notifies_once_witness :
    isWithinGameTime sampleConfig.monitoring 12 0 = true ∧ sampleGames ≠ [] ∧
    notifierCalls (monitorGames sampleConfig [] 12 0 "Fri Nov 06 2026" sampleGames []).effects =
      [[{ samplePlayer with isAvailable := some true }]] ∧
    (notifierCalls (monitorGames sampleConfig [] 12 0 "Fri Nov 06 2026" sampleGames
      []).effects =
      (if (processGames sampleConfig.thresholds [] "Fri Nov 06 2026" sampleGames
          []).flatten = [] then []
        else [(processGames sampleConfig.thresholds [] "Fri Nov 06 2026" sampleGames
          []).flatten]) ∧
    sendAlertEmail [] = []) :=
  ⟨by decide, by decide, by decide,
    monitorGames_notifies_once sampleConfig [] 12 0 "Fri Nov 06 2026" sampleGames []
      (by decide) (by decide)⟩

/-! ## C11: registered keys and the returned batch -/

/-- Where the loops end without exception, the keys a `processGame` call has
registered are the keys of the observations it returns, in the same order. -/
theorem processGame_keys_of_processed (thresholds : Thresholds)
    (rosteredPlayerIds : List JSVal) (today : String) (gameId gameName : JSVal)
    (teams : List Team) (alertedPlayers : List String)
    (hprocessed : (forEachTeam thresholds rosteredPlayerIds today gameId gameName teams
      { alertedPlayers := alertedPlayers, alertPlayers := [] }).2 = true) :
    (processGame thresholds rosteredPlayerIds today gameId gameName
      (some { players := some teams }) alertedPlayers).alertedPlayers =
      alertedPlayers ++
        (processGame thresholds rosteredPlayerIds today gameId gameName
          (some { players := some teams }) alertedPlayers).alerts.map
          (fun p => alertKey p.id today) := by
  obtain ⟨new, hnew⟩ := forEachTeam_adds thresholds rosteredPlayerIds today gameId gameName
    teams { alertedPlayers := alertedPlayers, alertPlayers := [] }
  simp only [processGame, hprocessed, if_true]
  rw [hnew.keys_eq, hnew.alerts_eq]
  simp

/-- C11, at the failing input. A box score with the qualifying sample athlete
followed by an athlete entry without `stats`: the key of the sample athlete
is accepted and inserted into `alertedPlayers`, then the second entry throws
and the call returns the empty batch, so a registered key has no player in
the returned batch. -/
theorem processGame_key_without_alert :
    processGame sampleThresholds [] "Fri Nov 06 2026" (JSVal.str "401")
      (JSVal.str "AWY @ HOM") (some { players := some [sampleTeam, statlessTeam] }) [] =
      { alertedPlayers := ["123-Fri Nov 06 2026"], alerts := [] } ∧
    alertKey sampleAthlete.id "Fri Nov 06 2026" = "123-Fri Nov 06 2026" ∧
    processGame sampleThresholds [] "Fri Nov 06 2026" (JSVal.str "401")
      (JSVal.str "AWY @ HOM") (some { players := some [sampleTeam] }) [] =
      { alertedPlayers := ["123-Fri Nov 06 2026"]
        alerts := [{ samplePlayer with isAvailable := some true }] } ∧
    processGame sampleThresholds [] "Fri Nov 06 2026" (JSVal.str "401")
      (JSVal.str "AWY @ HOM") (some { players := some [sampleTeam] })
      ["123-Fri Nov 06 2026"] =
      { alertedPlayers := ["123-Fri Nov 06 2026"], alerts := [] } := by
  refine ⟨?_, ?_, ?_, ?_⟩ <;> decide

/-! ## C12: the rostered player identifiers -/

theorem mem_setAdd (set : List JSVal) (w v : JSVal) :
    v ∈ setAdd set w ↔ v ∈ set ∨ v = w := by
  unfold setAdd
  by_cases h : w ∈ set
  · have hc : set.contains w = true := by simpa using h
    rw [if_pos hc]
    constructor
    · exact Or.inl
    · rintro (hv | rfl)
      · exact hv
      · exact h
  · have hc : ¬ set.contains w = true := by simpa using h
    rw [if_neg hc]
    simp

theorem nodup_setAdd (set : List JSVal) (w : JSVal) (h : set.Nodup) : (setAdd set w).Nodup := by
  unfold setAdd
  by_cases hw : w ∈ set
  · have hc : set.contains w = true := by simpa using hw
    rw [if_pos hc]
    exact h
  · have hc : ¬ set.contains w = true := by simpa using hw
    rw [if_neg hc]
    exact List.Nodup.append h (List.nodup_singleton w) (by simpa using hw)

theorem mem_addEntries (entries : List RosterEntry) (v : JSVal) :
    ∀ set : List JSVal, v ∈ addEntries entries set ↔
      v ∈ set ∨ (v.truthy = true ∧ ∃ entry ∈ entries, entry.playerId = v) := by
  induction entries with
  | nil => intro set; simp [addEntries]
  | cons entry rest ih =>
    intro set
    rw [addEntries, ih]
    by_cases ht : entry.playerId.truthy = true
    · rw [if_pos ht, mem_setAdd]
      constructor
      · rintro ((h | h) | ⟨hv, e, he, hev⟩)
        · exact Or.inl h
        · exact Or.inr ⟨h ▸ ht, entry, List.mem_cons_self _ _, h.symm⟩
        · exact Or.inr ⟨hv, e, List.mem_cons_of_mem _ he, hev⟩
      · rintro (h | ⟨hv, e, he, hev⟩)
        · exact Or.inl (Or.inl h)
        · rcases List.mem_cons.1 he with rfl | he
          · exact Or.inl (Or.inr hev.symm)
          · exact Or.inr ⟨hv, e, he, hev⟩
    · rw [if_neg ht]
      constructor
      · rintro (h | ⟨hv, e, he, hev⟩)
        · exact Or.inl h
        · exact Or.inr ⟨hv, e, List.mem_cons_of_mem _ he, hev⟩
      · rintro (h | ⟨hv, e, he, hev⟩)
        · exact Or.inl h
        · rcases List.mem_cons.1 he with rfl | he
          · exact absurd (hev ▸ hv) ht
          · exact Or.inr ⟨hv, e, he, hev⟩

theorem nodup_addEntries (entries : List RosterEntry) :
    ∀ set : List JSVal, set.Nodup → (addEntries entries set).Nodup := by
  induction entries with
  | nil => intro set h; exact h
  | cons entry rest ih =>
    intro set h
    rw [addEntries]
    apply ih
    split
    · exact nodup_setAdd _ _ h
    · exact h

theorem mem_addTeams (teams : List RosterTeam) (v : JSVal) :
    ∀ set : List JSVal, v ∈ addTeams teams set ↔
      v ∈ set ∨ (v.truthy = true ∧
        ∃ team ∈ teams, ∃ entry ∈ entriesOf team, entry.playerId = v) := by
  induction teams with
  | nil => intro set; simp [addTeams]
  | cons team rest ih =>
    intro set
    rw [addTeams, ih, mem_addEntries]
    constructor
    · rintro ((h | ⟨hv, e, he, hev⟩) | ⟨hv, t, ht, e, he, hev⟩)
      · exact Or.inl h
      · exact Or.inr ⟨hv, team, List.mem_cons_self _ _, e, he, hev⟩
      · exact Or.inr ⟨hv, t, List.mem_cons_of_mem _ ht, e, he, hev⟩
    · rintro (h | ⟨hv, t, ht, e, he, hev⟩)
      · exact Or.inl (Or.inl h)
      · rcases List.mem_cons.1 ht with rfl | ht
        · exact Or.inl (Or.inr ⟨hv, e, he, hev⟩)
        · exact Or.inr ⟨hv, t, ht, e, he, hev⟩

theorem nodup_addTeams (teams : List RosterTeam) :
    ∀ set : List JSVal, set.Nodup → (addTeams teams set).Nodup := by
  induction teams with
  | nil => intro set h; exact h
  | cons team rest ih =>
    intro set h
    rw [addTeams]
    exact ih _ (nodup_addEntries _ _ h)

theorem addTeams_append (xs ys : List RosterTeam) :
    ∀ set : List JSVal, addTeams (xs ++ ys) set = addTeams ys (addTeams xs set) := by
  induction xs with
  | nil => intro set; rfl
  | cons x xs ih => intro set; simp only [List.cons_append, addTeams]; exact ih _

/-- C12, as stated, fails: the identifier 0 is the `playerId` of a roster
entry of the season data and is not in the returned collection. -/
theorem extractRosteredPlayerIds_skips_zero :
    ¬ (JSVal.num 0 ∈ extractRosteredPlayerIds (some zeroIdSeason) ↔
      ∃ teams, zeroIdSeason.rosters = some teams ∧
        ∃ team ∈ teams, ∃ entry ∈ entriesOf team, entry.playerId = JSVal.num 0) := by
  intro h
  have hmem : JSVal.num 0 ∈ extractRosteredPlayerIds (some zeroIdSeason) :=
    h.2 ⟨_, rfl, _, List.mem_singleton.2 rfl, ⟨JSVal.num 0⟩, by decide, rfl⟩
  revert hmem
  decide

/-- C12, amended. `extractRosteredPlayerIds` returns a collection without
duplicates that contains a value exactly when it is the truthy `playerId` of
some entry in some team's `roster.entries` under `data.rosters`; it is empty
when `data` or `data.rosters` is absent, and a team without roster entries
contributes nothing. -/
theorem extractRosteredPlayerIds_spec (data : Option SeasonData) :
    (extractRosteredPlayerIds data).Nodup ∧
    (∀ v, v ∈ extractRosteredPlayerIds data ↔
      v.truthy = true ∧ ∃ d teams, data = some d ∧ d.rosters = some teams ∧
        ∃ team ∈ teams, ∃ entry ∈ entriesOf team, entry.playerId = v) ∧
    extractRosteredPlayerIds none = [] ∧
    extractRosteredPlayerIds (some { rosters := none }) = [] ∧
    (∀ (before after : List RosterTeam) (team : RosterTeam), entriesOf team = [] →
      extractRosteredPlayerIds (some { rosters := some (before ++ team :: after) }) =
        extractRosteredPlayerIds (some { rosters := some (before ++ after) })) := by
  refine ⟨?_, ?_, rfl, rfl, ?_⟩
  · cases data with
    | none => exact List.nodup_nil
    | some d =>
      cases hr : d.rosters with
      | none => simp [extractRosteredPlayerIds, hr]
      | some teams =>
        simp only [extractRosteredPlayerIds, hr]
        exact nodup_addTeams _ _ List.nodup_nil
  · intro v
    cases data with
    | none => simp [extractRosteredPlayerIds]
    | some d =>
      cases hr : d.rosters with
      | none => simp [extractRosteredPlayerIds, hr]
      | some teams =>
        simp only [extractRosteredPlayerIds, hr, mem_addTeams, List.not_mem_nil, false_or]
        constructor
        · rintro ⟨hv, h⟩
          exact ⟨hv, d, teams, rfl, hr, h⟩
        · rintro ⟨hv, d', teams', hd, hr', h⟩
          cases hd
          rw [hr] at hr'
          cases hr'
          exact ⟨hv, h⟩
  · intro before after team hteam
    simp only [extractRosteredPlayerIds, addTeams_append, addTeams, hteam, addEntries]

/-! ## C13: a window that spans midnight -/

theorem JSNum.not_atMost_of_greater (a b c : JSNum) (hgt : JSNum.Greater a b)
    (h1 : JSNum.AtMost a c) (h2 : JSNum.AtMost c b) : False := by
  obtain ⟨x, y, hx, hy, hlt⟩ := hgt
  obtain ⟨x1, z1, hx1, hz1, hle1⟩ := h1
  obtain ⟨z2, y2, hz2, hy2, hle2⟩ := h2
  rw [hx] at hx1
  rw [hy] at hy2
  rw [hz1] at hz2
  cases hx1
  cases hy2
  cases hz2
  exact absurd (le_trans hle1 hle2) (not_le.2 hlt)

/-- C13. With window gating on and start-minutes strictly greater than
end-minutes, `isWithinGameTime` is false at every time of day, and every
cycle ends without any call to a collaborator and leaves `alertedPlayers` as
it was. -/
theorem isWithinGameTime_false_of_inverted_window (monitoring : Monitoring)
    (henabled : monitoring.onlyDuringGameTimes = true)
    (hinverted : JSNum.Greater (minutesOfDay monitoring.gameTimeStart)
      (minutesOfDay monitoring.gameTimeEnd)) :
    (∀ hours minutes : Nat, isWithinGameTime monitoring hours minutes = false) ∧
    (∀ (thresholds : Thresholds) (rosteredPlayerIds : List JSVal) (hours minutes : Nat)
      (today : String) (games : List Game) (alertedPlayers : List String),
      monitorGames { thresholds := thresholds, monitoring := monitoring } rosteredPlayerIds
        hours minutes today games alertedPlayers =
        { alertedPlayers := alertedPlayers, effects := [] }) := by
  have hfalse : ∀ hours minutes : Nat, isWithinGameTime monitoring hours minutes = false := by
    intro hours minutes
    rw [← Bool.not_eq_true]
    intro h
    simp only [isWithinGameTime, henabled, Bool.not_true, Bool.false_eq_true, if_false,
      Bool.and_eq_true, JSNum.ge_eq_true_iff, JSNum.le_eq_true_iff] at h
    exact JSNum.not_atMost_of_greater _ _ _ hinverted h.1 h.2
  refine ⟨hfalse, ?_⟩
  intro thresholds rosteredPlayerIds hours minutes today games alertedPlayers
  exact monitorGames_outside_window _ _ _ _ _ _ _ (hfalse hours minutes)

theorem isWithinGameTime_false_of_inverted_window_witness :
    overnightWindow.onlyDuringGameTimes = true ∧
    JSNum.Greater (minutesOfDay overnightWindow.gameTimeStart)
      (minutesOfDay overnightWindow.gameTimeEnd) ∧
    isWithinGameTime overnightWindow 23 30 = false ∧
    monitorGames { thresholds := sampleThresholds, monitoring := overnightWindow } [] 23 30
      "Fri Nov 06 2026" sampleGames [] = { alertedPlayers := [], effects := [] } :=
  have hstart : minutesOfDay overnightWindow.gameTimeStart = JSNum.fin (((22 * 60 + 0 : Nat) : ℚ)) :=
    minutesOfDay_hhmm 22 0 (by decide) (by decide)
  have hend : minutesOfDay overnightWindow.gameTimeEnd = JSNum.fin (((2 * 60 + 0 : Nat) : ℚ)) :=
    minutesOfDay_hhmm 2 0 (by decide) (by decide)
  have hgt : JSNum.Greater (minutesOfDay overnightWindow.gameTimeStart)
      (minutesOfDay overnightWindow.gameTimeEnd) := by
    rw [hstart, hend]
    exact ⟨_, _, rfl, rfl, WithBot.coe_lt_coe.2 (WithTop.coe_lt_coe.2 (by norm_num))⟩
  ⟨rfl, hgt,
    (isWithinGameTime_false_of_inverted_window overnightWindow rfl hgt).1 23 30,
    (isWithinGameTime_false_of_inverted_window overnightWindow rfl hgt).2 sampleThresholds []
      23 30 "Fri Nov 06 2026" sampleGames []⟩

/-! ## C14: the eligibility guard -/

theorem isAvailable_or_empty (rosteredPlayerIds : List JSVal) (playerId : JSVal) :
    (isAvailable rosteredPlayerIds playerId || rosteredPlayerIds.length == 0) =
      isAvailable rosteredPlayerIds playerId := by
  cases rosteredPlayerIds with
  | nil => simp [isAvailable, isRostered]
  | cons id rest => simp

theorem processGames_available (thresholds : Thresholds) (rosteredPlayerIds : List JSVal)
    (today : String) (games : List Game) :
    ∀ alertedPlayers : List String,
      ∀ p ∈ (processGames thresholds rosteredPlayerIds today games alertedPlayers).flatten,
        p.isAvailable = some true := by
  induction games with
  | nil => intro alertedPlayers p hp; simp [processGames] at hp
  | cons game rest ih =>
    intro alertedPlayers p hp
    obtain ⟨new, -, halerts, -, -, hacc⟩ := processGame_adds thresholds rosteredPlayerIds
      today game.id game.shortName game.response alertedPlayers
    simp only [processGames, List.flatten_cons] at hp
    rcases List.mem_append.1 hp with hp | hp
    · rcases halerts with h | h
      · rw [h] at hp; exact (hacc p hp).2.1
      · rw [h] at hp; exact absurd hp (List.not_mem_nil _)
    · exact ih _ p hp

/-- Whatever the gate and the schedule, an invocation of `sendAlertEmail` in
a cycle carries the concatenation of the batches of the cycle. -/
theorem notifierCalls_monitorGames (config : Config) (rosteredPlayerIds : List JSVal)
    (hours minutes : Nat) (today : String) (games : List Game) (alertedPlayers : List String) :
    ∀ players ∈ notifierCalls (monitorGames config rosteredPlayerIds hours minutes today games
      alertedPlayers).effects,
      players = (processGames config.thresholds rosteredPlayerIds today games
        alertedPlayers).flatten := by
  intro players hplayers
  have hloop := gamesLoop_eq config rosteredPlayerIds today games alertedPlayers []
    [Effect.fetchTodayGames]
  rw [Prod.ext_iff] at hloop
  simp only [List.nil_append] at hloop
  unfold monitorGames at hplayers
  split at hplayers
  · simp [notifierCalls] at hplayers
  · split at hplayers
    · simp [notifierCalls] at hplayers
    · simp only [hloop.1, hloop.2] at hplayers
      split at hplayers
      · simpa [notifierCalls_append, notifierCalls_fetchSummary, notifierCalls,
          notifierCalls_sendAlertEmail] using hplayers
      · simp [notifierCalls_append, notifierCalls_fetchSummary, notifierCalls] at hplayers

/-- C14. The guard `isAvailable || roster is empty` of `processGame` has the
value of `isAvailable` alone, so the athlete callback is the one with the
reduced guard; every observation in every batch returned by `processGame`,
and every player handed to `sendAlertEmail`, has `isAvailable = true`. -/
theorem eligibility_is_availability (thresholds : Thresholds)
    (rosteredPlayerIds : List JSVal) (today : String) :
    (∀ playerId : JSVal,
      (isAvailable rosteredPlayerIds playerId || rosteredPlayerIds.length == 0) =
        isAvailable rosteredPlayerIds playerId) ∧
    isAvailable [] = (fun _ => true) ∧
    (∀ (st : LoopState) (playerStats : PlayerStats),
      alertStep thresholds rosteredPlayerIds today st playerStats =
        alertStepAvailableOnly thresholds rosteredPlayerIds today st playerStats) ∧
    (∀ (gameId gameName : JSVal) (response : Option GameData) (alertedPlayers : List String),
      ∀ p ∈ (processGame thresholds rosteredPlayerIds today gameId gameName response
        alertedPlayers).alerts, p.isAvailable = some true) ∧
    (∀ (monitoring : Monitoring) (hours minutes : Nat) (games : List Game)
      (alertedPlayers : List String),
      ∀ players ∈ notifierCalls (monitorGames
        { thresholds := thresholds, monitoring := monitoring } rosteredPlayerIds hours minutes
        today games alertedPlayers).effects,
      ∀ p ∈ players, p.isAvailable = some true) := by
  refine ⟨isAvailable_or_empty rosteredPlayerIds, ?_, ?_, ?_, ?_⟩
  · funext playerId
    simp [isAvailable, isRostered]
  · intro st playerStats
    simp only [alertStep, alertStepAvailableOnly, isAvailable_or_empty]
  · intro gameId gameName response alertedPlayers p hp
    obtain ⟨new, -, halerts, -, -, hacc⟩ := processGame_adds thresholds rosteredPlayerIds
      today gameId gameName response alertedPlayers
    rcases halerts with h | h
    · rw [h] at hp; exact (hacc p hp).2.1
    · rw [h] at hp; exact absurd hp (List.not_mem_nil _)
  · intro monitoring hours minutes games alertedPlayers players hplayers p hp
    rw [notifierCalls_monitorGames _ _ _ _ _ _ _ players hplayers] at hp
    exact processGames_available thresholds rosteredPlayerIds today games alertedPlayers p hp

end FantasyAPN
